import Mathlib

/-!
The request-body capture filter of mod_dumpost.

A shallow embedding of `src/mod_dumpost.c` and theorems about it.

Conventions of the embedding.

* A byte (`char`) is its unsigned value, a `Nat`; the zero byte is `0`, the space is `32`.
* A C string (`const char *` ending in a zero byte) is a `CStr`: the bytes before the
  terminator, none of which is zero.  Raw memory handed over with an explicit length (the
  data of a bucket) is a plain `List Byte` and may hold zero bytes.
* `cfg->max_size` and `state->buffer_used` are natural numbers.  Their C types are declared
  in `mod_dumpost.h`; every arithmetic expression on them in the source stays inside
  `[0, max_size + 1]` as long as `buffer_used ≤ max_size`, which is what the theorems
  assume or establish, and `max_size + 1` is taken to fit the C type, except in
  `new_state_sized` and `dumpost_input_filter_sized`, which compute it in that type.
* The buffer is a list of `max_size + 1` bytes; a store outside it yields `none`, and so
  does every function that performs one.
* Each function returns, next to its C result, the new request state and the log lines it
  produced, oldest first.
* The Apache and APR functions (`apr_table_get`, `apr_bucket_read`, `ap_get_brigade`,
  `apr_pool_create`, `apr_palloc`, `ap_log_rerror`) are represented by their results:
  a bucket carries the outcome of reading it and reading leaves the brigade as it is, a
  call of the filter carries the status of `apr_pool_create`, the content of fresh memory
  and what `ap_get_brigade` returns, and a log line is the formatted text at its level.
* The method, hostname and URI of a request are strings, none of them `NULL`.
-/

namespace ModDumpost

/-! ## Data model -/

/-- A `char`, as its unsigned value. -/
abbrev Byte := Nat

/-- A C string: the bytes before the terminating zero byte. -/
structure CStr where
  data : List Byte
  nul_free : data.all (fun b => b != 0) = true

/-- The `strlen` of libc. -/
def strlen (s : CStr) : Nat := s.data.length

/-- Values of `apr_status_t`. -/
abbrev apr_status_t := Int

/-- The success status of APR. -/
def APR_SUCCESS : apr_status_t := 0

/-- The directory configuration `dumpost_cfg_t` (the pool handle left out). -/
structure dumpost_cfg_t where
  max_size : Nat
  headers : List (List Byte)
deriving DecidableEq

/-- The fields of `request_rec` the module reads. -/
structure request_rec where
  method : CStr
  hostname : CStr
  uri : CStr
  the_request : CStr
  args : Option CStr
  headers_in : List (List Byte × CStr)

/-- The per-request state `request_state` (the pool handle left out). -/
structure request_state where
  buffer : List Byte
  buffer_used : Nat
  header_printed : Bool
  qs_printed : Bool
  buffer_printed : Bool
deriving DecidableEq

/-- The texts given to the `DEBUG` macro and to the debug-level `ap_log_rerror` call. -/
inductive DebugMsg where
  | start_brigade
  | data_bucket
  | bytes_read (nbytes : Nat)
  | error_reading
  | metadata_bucket
  | eos_bucket
  | end_brigade
deriving DecidableEq

/-- One line handed to `ap_log_rerror`, by level. -/
inductive LogEntry where
  | debug (msg : DebugMsg)
  | info (line : List Byte)
  | warning (max_size : Nat)
  | error
deriving DecidableEq

/-- A bucket of a brigade: a data bucket with the outcome of `apr_bucket_read` on it
(`none` when the read fails), the end-of-stream bucket, or another metadata bucket. -/
inductive apr_bucket where
  | data (read : Option (List Byte))
  | eos
  | metadata
deriving DecidableEq

/-! ## libc and APR primitives -/

/-- The bytes before the first zero byte: what `%s` prints of a memory area. -/
def cstr_of (mem : List Byte) : List Byte := mem.takeWhile (fun b => b != 0)

/-- The `n` bytes `strncpy(dst, src, n)` stores: the bytes of `src` before its first zero
byte, at most `n` of them, then zero bytes up to `n`. -/
def strncpy_bytes (src : List Byte) (n : Nat) : List Byte :=
  cstr_of (src.take n) ++ List.replicate (n - (cstr_of (src.take n)).length) 0

/-- Store `bytes` into `buf` from index `off` on; `none` when the store leaves `buf`. -/
def store_at (buf : List Byte) (off : Nat) (bytes : List Byte) : Option (List Byte) :=
  if off + bytes.length ≤ buf.length then
    some (buf.take off ++ bytes ++ buf.drop (off + bytes.length))
  else none

/-- Fresh memory of `n` bytes from `apr_palloc`, its content arbitrary (`junk`). -/
def apr_palloc (junk : Nat → Byte) (n : Nat) : List Byte := (List.range n).map junk

/-- ASCII lower case of a byte. -/
def ascii_lower (b : Byte) : Byte := if 65 ≤ b ∧ b ≤ 90 then b + 32 else b

/-- The `apr_table_get` of APR: the value of the first entry whose key equals `key`
without regard to case. -/
def apr_table_get (t : List (List Byte × CStr)) (key : List Byte) : Option CStr :=
  match t.find? (fun e => e.1.map ascii_lower == key.map ascii_lower) with
  | some e => some e.2
  | none => none

/-! ## The module -/

/-- Source: `buffer_is_full`. -/
def buffer_is_full (state : request_state) (cfg : dumpost_cfg_t) : Bool :=
  state.buffer_used == cfg.max_size

/-- Modelled from the spec: the `min` macro of `mod_dumpost.h`, which is not among the
sources; the append "copies up to `max_size − used` bytes from the input". -/
def c_min (a b : Nat) : Nat := if a < b then a else b

/-- Source: `buffer_append`.  Returns the number of bytes appended, the new state and the
log lines. -/
def buffer_append (state : request_state) (cfg : dumpost_cfg_t) (s : List Byte) (len : Nat) :
    Option (Nat × request_state × List LogEntry) :=
  if buffer_is_full state cfg then some (0, state, [])
  else
    let ins_len := c_min len (cfg.max_size - state.buffer_used)
    match store_at state.buffer state.buffer_used (strncpy_bytes s ins_len) with
    | none => none
    | some buf =>
      let state1 := { state with buffer := buf, buffer_used := state.buffer_used + ins_len }
      if buffer_is_full state1 cfg then
        some (ins_len, state1, [LogEntry.warning cfg.max_size])
      else some (ins_len, state1, [])

/-- The text `"%s %s%s %s"` formats from its four string arguments. -/
def format_record (method hostname uri buffer : List Byte) : List Byte :=
  cstr_of method ++ [32] ++ cstr_of hostname ++ cstr_of uri ++ [32] ++ cstr_of buffer

/-- Source: `buffer_print`. -/
def buffer_print (r : request_rec) (state : request_state) (_cfg : dumpost_cfg_t) :
    Option (request_state × List LogEntry) :=
  if state.buffer_printed then some (state, [])
  else
    match store_at state.buffer state.buffer_used [0] with
    | none => none
    | some buf =>
      some ({ state with buffer := buf, buffer_printed := true },
        [LogEntry.info (format_record r.method.data r.hostname.data r.uri.data buf)])

/-- Source: `dumpost_input_filter`, the creation of the state (lines 93 to 99), with
the size `max_size + 1` of the buffer taken as a natural number: this is the state the
source creates whenever `max_size + 1` fits the type of `max_size` (see
`new_state_sized`). -/
def new_state (cfg : dumpost_cfg_t) (junk : Nat → Byte) : request_state :=
  { buffer_used := 0
    header_printed := false
    qs_printed := false
    buffer := apr_palloc junk (cfg.max_size + 1)
    buffer_printed := false }

/-- Source: `dumpost_input_filter`, the loop over the configured header names
(lines 108 to 114). -/
def header_loop (r : request_rec) (cfg : dumpost_cfg_t) :
    List (List Byte) → request_state → Option (request_state × List LogEntry)
  | [], state => some (state, [])
  | name :: rest, state =>
    match apr_table_get r.headers_in name with
    | none => header_loop r cfg rest state
    | some s =>
      match buffer_append state cfg s.data (strlen s) with
      | none => none
      | some (_, state1, log1) =>
        match buffer_append state1 cfg [32] 1 with
        | none => none
        | some (_, state2, log2) =>
          match header_loop r cfg rest state2 with
          | none => none
          | some (state3, log3) => some (state3, log1 ++ log2 ++ log3)

/-- Source: `dumpost_input_filter`, "dump header if config" (lines 102 to 116). -/
def dump_headers (r : request_rec) (cfg : dumpost_cfg_t) (state : request_state) :
    Option (request_state × List LogEntry) :=
  let headers : Option (List (List Byte)) :=
    if cfg.headers.length > 0 then some cfg.headers else none
  match headers with
  | none => some (state, [])
  | some hs =>
    if !buffer_is_full state cfg && !state.header_printed then
      match header_loop r cfg hs state with
      | none => none
      | some (state1, log1) => some ({ state1 with header_printed := true }, log1)
    else some (state, [])

/-- Source: `dumpost_input_filter`, the dump of the query string (lines 119 to 124). -/
def dump_query_string (r : request_rec) (cfg : dumpost_cfg_t) (state : request_state) :
    Option (request_state × List LogEntry) :=
  match r.args with
  | none => some (state, [])
  | some args =>
    if !buffer_is_full state cfg && !state.qs_printed && args.data.head? != none then
      match buffer_append state cfg args.data (strlen args) with
      | none => none
      | some (_, state1, log1) =>
        match buffer_append state1 cfg [32] 1 with
        | none => none
        | some (_, state2, log2) => some ({ state2 with qs_printed := true }, log1 ++ log2)
    else some (state, [])

/-- Source: `dumpost_input_filter`, the body of the loop over the brigade
(lines 133 to 163), for one bucket. -/
def bucket_step (r : request_rec) (cfg : dumpost_cfg_t) (b : apr_bucket)
    (state : request_state) : Option (request_state × List LogEntry) :=
  match b with
  | apr_bucket.data read =>
    if !buffer_is_full state cfg then
      match read with
      | some ibuf =>
        if ibuf.length != 0 then
          match buffer_append state cfg ibuf ibuf.length with
          | none => none
          | some (_, state1, log1) =>
            some (state1, [LogEntry.debug DebugMsg.data_bucket,
              LogEntry.debug (DebugMsg.bytes_read ibuf.length)] ++ log1)
        else some (state, [LogEntry.debug DebugMsg.data_bucket])
      | none =>
        some (state, [LogEntry.debug DebugMsg.data_bucket,
          LogEntry.debug DebugMsg.error_reading])
    else some (state, [LogEntry.debug DebugMsg.data_bucket])
  | apr_bucket.eos =>
    match buffer_print r state cfg with
    | none => none
    | some (state1, log1) =>
      some (state1, [LogEntry.debug DebugMsg.metadata_bucket,
        LogEntry.debug DebugMsg.eos_bucket] ++ log1)
  | apr_bucket.metadata => some (state, [LogEntry.debug DebugMsg.metadata_bucket])

/-- Source: `dumpost_input_filter`, the loop over the brigade (lines 131 to 164). -/
def brigade_loop (r : request_rec) (cfg : dumpost_cfg_t) :
    List apr_bucket → request_state → Option (request_state × List LogEntry)
  | [], state => some (state, [])
  | b :: rest, state =>
    match bucket_step r cfg b state with
    | none => none
    | some (state1, log1) =>
      match brigade_loop r cfg rest state1 with
      | none => none
      | some (state2, log2) => some (state2, log1 ++ log2)

/-- What one call of the filter meets outside the module: the status of
`apr_pool_create` and the content of the memory `apr_palloc` returns (both used only when
the state is still to be created), the brigade `bb` passed in, and the status and brigade
content `ap_get_brigade` leaves. -/
structure Invocation where
  pool_create : apr_status_t
  junk : Nat → Byte
  bb : List apr_bucket
  get_brigade : apr_status_t × List apr_bucket

/-- The outcome of one call of the filter: the returned status, `f->ctx`, the brigade left
to the caller and the log lines. -/
structure FilterResult where
  status : apr_status_t
  ctx : Option request_state
  bb : List apr_bucket
  log : List LogEntry
deriving DecidableEq

/-- Source: `dumpost_input_filter`, from the dump of the headers on (lines 102 to 168),
on the state `state`. -/
def filter_body (r : request_rec) (cfg : dumpost_cfg_t) (state : request_state)
    (inv : Invocation) : Option FilterResult :=
  match dump_headers r cfg state with
  | none => none
  | some (state1, log1) =>
    match dump_query_string r cfg state1 with
    | none => none
    | some (state2, log2) =>
      let ret := inv.get_brigade.1
      if ret != APR_SUCCESS then
        some { status := ret, ctx := some state2, bb := inv.get_brigade.2, log := log1 ++ log2 }
      else
        match brigade_loop r cfg inv.get_brigade.2 state2 with
        | none => none
        | some (state3, log3) =>
          some { status := APR_SUCCESS, ctx := some state3, bb := inv.get_brigade.2,
                 log := log1 ++ log2 ++ [LogEntry.debug DebugMsg.start_brigade] ++ log3 ++
                   [LogEntry.debug DebugMsg.end_brigade] }

/-- Source: `dumpost_input_filter`; `ctx` is `f->ctx` on entry. -/
def dumpost_input_filter (r : request_rec) (cfg : dumpost_cfg_t) (ctx : Option request_state)
    (inv : Invocation) : Option FilterResult :=
  match ctx with
  | some state => filter_body r cfg state inv
  | none =>
    if inv.pool_create != APR_SUCCESS then
      some { status := inv.pool_create, ctx := none, bb := inv.bb, log := [LogEntry.error] }
    else filter_body r cfg (new_state cfg inv.junk) inv

/-- Source: `dumpost_input_filter`, the creation of the state (lines 93 to 99), with
the size `cfg->max_size + 1` of the buffer computed in the type of `max_size`, taken as
an unsigned integer of `size_bits` bits as in `dumpost_set_max_size`: at the largest value
of the type the sum wraps to 0. -/
def new_state_sized (size_bits : Nat) (cfg : dumpost_cfg_t) (junk : Nat → Byte) :
    request_state :=
  { buffer_used := 0
    header_printed := false
    qs_printed := false
    buffer := apr_palloc junk ((cfg.max_size + 1) % 2 ^ size_bits)
    buffer_printed := false }

/-- Source: `dumpost_input_filter`, with the size of the buffer computed in the type of
`max_size` (`new_state_sized`); `ctx` is `f->ctx` on entry. -/
def dumpost_input_filter_sized (size_bits : Nat) (r : request_rec) (cfg : dumpost_cfg_t)
    (ctx : Option request_state) (inv : Invocation) : Option FilterResult :=
  match ctx with
  | some state => filter_body r cfg state inv
  | none =>
    if inv.pool_create != APR_SUCCESS then
      some { status := inv.pool_create, ctx := none, bb := inv.bb, log := [LogEntry.error] }
    else filter_body r cfg (new_state_sized size_bits cfg inv.junk) inv

/-- The `isspace` of libc in the C locale. -/
def isspace (c : Byte) : Bool := c == 32 || (9 ≤ c && c ≤ 13)

/-- The value of the decimal digits a text starts with, after the digits read so far. -/
def atoi_digits : List Byte → Int → Int
  | [], acc => acc
  | c :: rest, acc =>
    if 48 ≤ c ∧ c ≤ 57 then atoi_digits rest (acc * 10 + ((c : Int) - 48)) else acc

/-- The number a text starts with: white space is skipped, then an optional sign and the
decimal digits that follow are read. -/
def leading_number (s : List Byte) : Int :=
  match s.dropWhile isspace with
  | 45 :: rest => - atoi_digits rest 0
  | 43 :: rest => atoi_digits rest 0
  | t => atoi_digits t 0

/-- The `strtol` of libc in base 10, for a `long` of 64 bits: the number the text starts
with, a number outside the `long` replaced by the nearest end of its range. -/
def strtol (s : List Byte) : Int :=
  if leading_number s > 2 ^ 63 - 1 then 2 ^ 63 - 1
  else if leading_number s < -(2 ^ 63) then -(2 ^ 63)
  else leading_number s

/-- The `atoi` of libc, which is `(int) strtol(s, NULL, 10)`, for an `int` of 32 bits:
the `long` converted to `int` keeps its low 32 bits, read as a signed number. -/
def atoi (s : List Byte) : Int :=
  (strtol s + 2 ^ 31) % 2 ^ 32 - 2 ^ 31

/-- Source: `dumpost_create_dconfig`.  `DEFAULT_MAX_SIZE` is a macro of `mod_dumpost.h`,
which is not among the sources: its value is a parameter. -/
def dumpost_create_dconfig (DEFAULT_MAX_SIZE : Nat) : dumpost_cfg_t :=
  { max_size := DEFAULT_MAX_SIZE, headers := [] }

/-- Source: `dumpost_set_max_size`.  The type of `max_size` is declared in
`mod_dumpost.h`, which is not among the sources: it is taken as an unsigned integer of
`size_bits` bits (the source mixes it with `apr_size_t` values), so that the `int` of
`atoi` is stored modulo `2 ^ size_bits`; `DEFAULT_MAX_SIZE` is a parameter. -/
def dumpost_set_max_size (size_bits : Nat) (DEFAULT_MAX_SIZE : Nat) (cfg : dumpost_cfg_t)
    (arg : CStr) : dumpost_cfg_t :=
  let cfg1 := { cfg with max_size := (atoi arg.data % 2 ^ size_bits).toNat }
  if cfg1.max_size == 0 then { cfg1 with max_size := DEFAULT_MAX_SIZE } else cfg1

/-- Source: `dumpost_add_header`. -/
def dumpost_add_header (cfg : dumpost_cfg_t) (arg : List Byte) : dumpost_cfg_t :=
  { cfg with headers := cfg.headers ++ [arg] }

/-- The calls of the filter on one request, in order, from `f->ctx = ctx` on: the final
`f->ctx`, the results of the calls and the whole log; `none` as soon as one call stores
outside the buffer. -/
def run_filter (r : request_rec) (cfg : dumpost_cfg_t) :
    Option request_state → List Invocation → Option (Option request_state × List LogEntry)
  | ctx, [] => some (ctx, [])
  | ctx, inv :: rest =>
    match dumpost_input_filter r cfg ctx inv with
    | none => none
    | some res =>
      match run_filter r cfg res.ctx rest with
      | none => none
      | some (ctx1, log1) => some (ctx1, res.log ++ log1)

/-- One operation on a request state: a call of `buffer_append` or a call of
`dumpost_input_filter`. -/
inductive Op where
  | append (s : List Byte) (len : Nat)
  | filter (inv : Invocation)

/-- A sequence of operations on one request state: the final state and the whole log. -/
def run_ops (r : request_rec) (cfg : dumpost_cfg_t) :
    request_state → List Op → Option (request_state × List LogEntry)
  | state, [] => some (state, [])
  | state, Op.append s len :: rest =>
    match buffer_append state cfg s len with
    | none => none
    | some (_, state1, log1) =>
      match run_ops r cfg state1 rest with
      | none => none
      | some (state2, log2) => some (state2, log1 ++ log2)
  | state, Op.filter inv :: rest =>
    match dumpost_input_filter r cfg (some state) inv with
    | none => none
    | some res =>
      match run_ops r cfg (res.ctx.getD state) rest with
      | none => none
      | some (state2, log2) => some (state2, res.log ++ log2)

/-! ## Observations on states and logs -/

/-- The captured bytes `buffer[0..buffer_used)`. -/
def captured (state : request_state) : List Byte := state.buffer.take state.buffer_used

/-- The state is laid out as `dumpost_input_filter` allocates it (`max_size + 1` bytes of
buffer) and `buffer_used` is within `[0, max_size]`. -/
def state_ok (cfg : dumpost_cfg_t) (state : request_state) : Prop :=
  state.buffer.length = cfg.max_size + 1 ∧ state.buffer_used ≤ cfg.max_size

instance (cfg : dumpost_cfg_t) (state : request_state) : Decidable (state_ok cfg state) := by
  unfold state_ok; infer_instance

/-- The informational records of a log, in order. -/
def info_records : List LogEntry → List (List Byte)
  | [] => []
  | LogEntry.info line :: rest => line :: info_records rest
  | _ :: rest => info_records rest

/-- The number of fullness warnings in a log. -/
def warning_count : List LogEntry → Nat
  | [] => 0
  | LogEntry.warning _ :: rest => warning_count rest + 1
  | _ :: rest => warning_count rest

/-! ## Summaries used in the proofs -/

/-- Steps of the module took `state` to `state1`, offered the bytes `x` to the buffer and
logged `log`: the summary the functions of the module share. -/
structure Trans (cfg : dumpost_cfg_t) (state state1 : request_state) (x : List Byte)
    (log : List LogEntry) : Prop where
  ok : state_ok cfg state1
  cap : captured state1 = (captured state ++ x).take cfg.max_size
  hp : state.header_printed = true → state1.header_printed = true
  qp : state.qs_printed = true → state1.qs_printed = true
  bp : state.buffer_printed = true → state1.buffer_printed = true
  infos : (info_records log).length =
    if state.buffer_printed = false ∧ state1.buffer_printed = true then 1 else 0
  warns : warning_count log =
    if state.buffer_used < cfg.max_size ∧ state1.buffer_used = cfg.max_size then 1 else 0

/-- A summary `Trans` whose steps leave the three flags as they were. -/
def Appends (cfg : dumpost_cfg_t) (state state1 : request_state) (x : List Byte)
    (log : List LogEntry) : Prop :=
  Trans cfg state state1 x log ∧ state1.header_printed = state.header_printed ∧
    state1.qs_printed = state.qs_printed ∧ state1.buffer_printed = state.buffer_printed

/-! ## The terms of the claims -/

/-- The header segment `H`: for each configured header name, in configured order, that
the request carries, its value followed by one space. -/
def header_segment (r : request_rec) : List (List Byte) → List Byte
  | [] => []
  | name :: rest =>
    (match apr_table_get r.headers_in name with
      | some value => value.data ++ [32]
      | none => []) ++ header_segment r rest

/-- The query-string segment `Q`: the query string followed by one space when the query
string is non-empty, nothing otherwise. -/
def query_segment (r : request_rec) : List Byte :=
  match r.args with
  | some args => if args.data = [] then [] else args.data ++ [32]
  | none => []

/-- The bytes a bucket yields when read: those of a data bucket whose read succeeds. -/
def bucket_bytes : apr_bucket → List Byte
  | apr_bucket.data (some ibuf) => ibuf
  | _ => []

/-- The body bytes `B` of a brigade: the bytes of its successfully read data buckets, in
order. -/
def brigade_bytes : List apr_bucket → List Byte
  | [] => []
  | b :: rest => bucket_bytes b ++ brigade_bytes rest

/-- The bytes `strncpy` makes of the body bytes of a brigade, bucket by bucket. -/
def brigade_image : List apr_bucket → List Byte
  | [] => []
  | b :: rest => strncpy_bytes (bucket_bytes b) (bucket_bytes b).length ++ brigade_image rest

/-- The brigade holds an end-of-stream bucket. -/
def has_eos (bb : List apr_bucket) : Bool := bb.any (fun b => b == apr_bucket.eos)

/-- Nothing is left for the header and query-string steps to do on `state`. -/
def preamble_done (r : request_rec) (cfg : dumpost_cfg_t) (state : request_state) : Prop :=
  (cfg.headers = [] ∨ buffer_is_full state cfg = true ∨ state.header_printed = true) ∧
  (query_segment r = [] ∨ buffer_is_full state cfg = true ∨ state.qs_printed = true)

/-- The record text for a request and captured bytes: the method, one space, the hostname
immediately followed by the URI, one space, then the captured bytes before their first
zero byte (all of them when none is zero). -/
def record_of (r : request_rec) (bytes : List Byte) : List Byte :=
  r.method.data ++ [32] ++ r.hostname.data ++ r.uri.data ++ [32] ++ cstr_of bytes

/-- The record text with the captured bytes taken raw: the method, one space, the hostname
immediately followed by the URI, one space, then all of `bytes`. -/
def raw_record_of (r : request_rec) (bytes : List Byte) : List Byte :=
  r.method.data ++ [32] ++ r.hostname.data ++ r.uri.data ++ [32] ++ bytes

/-- The buckets of a brigade before its first end-of-stream bucket. -/
def before_eos (bb : List apr_bucket) : List apr_bucket :=
  bb.takeWhile (fun b => b != apr_bucket.eos)

/-- The brigades the filter fetches successfully over the calls `invs`, in order:
a call fetches when the state exists (`has_state`) or is created in it, and
`ap_get_brigade` returns `APR_SUCCESS`. -/
def fetched_brigades : Bool → List Invocation → List (List apr_bucket)
  | _, [] => []
  | has_state, inv :: rest =>
    if has_state = false ∧ inv.pool_create ≠ APR_SUCCESS then fetched_brigades false rest
    else if inv.get_brigade.1 = APR_SUCCESS then
      inv.get_brigade.2 :: fetched_brigades true rest
    else fetched_brigades true rest

/-- The buckets of the successfully fetched brigades, in arrival order. -/
def fetched_buckets (has_state : Bool) (invs : List Invocation) : List apr_bucket :=
  (fetched_brigades has_state invs).flatten

/-- A data bucket whose read fails or yields zero bytes. -/
def skipped_bucket : apr_bucket → Bool
  | apr_bucket.data none => true
  | apr_bucket.data (some ibuf) => ibuf.length == 0
  | _ => false

/-- The brigade without the data buckets whose read fails or yields zero bytes. -/
def without_skipped (bb : List apr_bucket) : List apr_bucket :=
  bb.filter (fun b => !skipped_bucket b)

/-- The warning, informational and error lines of a log, in order: the log without its
debug lines. -/
def non_debug : List LogEntry → List LogEntry
  | [] => []
  | LogEntry.debug _ :: rest => non_debug rest
  | e :: rest => e :: non_debug rest

/-- What a walk of a brigade leaves to observe: the final state and the log without its
debug lines. -/
def walk_outcome (x : Option (request_state × List LogEntry)) :
    Option (request_state × List LogEntry) :=
  x.map (fun p => (p.1, non_debug p.2))

/-- What a call of the filter leaves to observe, the brigade apart: the status, the state
and the log without its debug lines. -/
def call_outcome (x : Option FilterResult) :
    Option (apr_status_t × Option request_state × List LogEntry) :=
  x.map (fun res => (res.status, res.ctx, non_debug res.log))

/-! ## Scenarios -/

/-- The bytes of an ASCII text. -/
def str (s : String) : List Byte := s.toList.map Char.toNat

/-- Scenario "small POST captured entirely": the configuration. -/
def post_cfg : dumpost_cfg_t := { max_size := 64, headers := [str "Content-Type"] }

/-- Scenario "small POST captured entirely": the request. -/
def post_request : request_rec :=
  { method := ⟨str "POST", by decide⟩
    hostname := ⟨str "h", by decide⟩
    uri := ⟨str "/p", by decide⟩
    the_request := ⟨str "POST /p HTTP/1.1", by decide⟩
    args := none
    headers_in :=
      [(str "Content-Type", ⟨str "application/x-www-form-urlencoded", by decide⟩)] }

/-- Scenario "small POST captured entirely": the body arrives as `a=1&`, then `b=2`
followed by the end of the stream, in two calls. -/
def post_invocations : List Invocation :=
  [{ pool_create := APR_SUCCESS, junk := fun _ => 7, bb := [],
     get_brigade := (APR_SUCCESS, [apr_bucket.data (some (str "a=1&"))]) },
   { pool_create := APR_SUCCESS, junk := fun _ => 7, bb := [],
     get_brigade := (APR_SUCCESS, [apr_bucket.data (some (str "b=2")), apr_bucket.eos]) }]

/-- Scenario "body with a zero byte": the configuration. -/
def nul_cfg : dumpost_cfg_t := { max_size := 4, headers := [] }

/-- A `POST /p` on host `h` with no header and no query string. -/
def plain_request : request_rec :=
  { method := ⟨str "POST", by decide⟩
    hostname := ⟨str "h", by decide⟩
    uri := ⟨str "/p", by decide⟩
    the_request := ⟨str "POST /p HTTP/1.1", by decide⟩
    args := none
    headers_in := [] }

/-- Scenario "body with a zero byte": one call whose brigade holds the three bytes
`a`, zero, `b`. -/
def nul_invocation : Invocation :=
  { pool_create := APR_SUCCESS, junk := fun _ => 7, bb := [],
    get_brigade := (APR_SUCCESS, [apr_bucket.data (some [97, 0, 98])]) }

/-- The state the call of scenario "body with a zero byte" leaves. -/
def nul_state : request_state :=
  { buffer := [97, 0, 0, 7, 7], buffer_used := 3, header_printed := false,
    qs_printed := false, buffer_printed := false }

/-- Scenario "body truncated to cap": the configuration. -/
def trunc_cfg : dumpost_cfg_t := { max_size := 8, headers := [] }

/-- Scenario "body truncated to cap": one call whose brigade holds the body `0123456789`
and the end of the stream. -/
def trunc_invocation : Invocation :=
  { pool_create := APR_SUCCESS, junk := fun _ => 7, bb := [],
    get_brigade := (APR_SUCCESS, [apr_bucket.data (some (str "0123456789")), apr_bucket.eos]) }

/-- A call whose `ap_get_brigade` fails, with the status 70007. -/
def failed_invocation : Invocation :=
  { pool_create := APR_SUCCESS, junk := fun _ => 7, bb := [], get_brigade := (70007, []) }

/-- Scenario "missing configured header": the configuration. -/
def agent_cfg : dumpost_cfg_t :=
  { max_size := 32, headers := [str "X-Absent", str "User-Agent"] }

/-- Scenario "missing configured header": the request, which carries `User-Agent: ua`
only. -/
def agent_request : request_rec :=
  { method := ⟨str "GET", by decide⟩
    hostname := ⟨str "h", by decide⟩
    uri := ⟨str "/", by decide⟩
    the_request := ⟨str "GET / HTTP/1.1", by decide⟩
    args := none
    headers_in := [(str "User-Agent", ⟨str "ua", by decide⟩)] }

/-- Scenario "GET with query string, no body": the configuration. -/
def query_cfg : dumpost_cfg_t := { max_size := 64, headers := [] }

/-- Scenario "GET with query string, no body": the request `GET /s?q=foo` on host `h`,
of which the server puts the path `/s` in `r->uri` and the query string `q=foo` in
`r->args`. -/
def query_request : request_rec :=
  { method := ⟨str "GET", by decide⟩
    hostname := ⟨str "h", by decide⟩
    uri := ⟨str "/s", by decide⟩
    the_request := ⟨str "GET /s?q=foo HTTP/1.1", by decide⟩
    args := some ⟨str "q=foo", by decide⟩
    headers_in := [] }

/-- A call whose brigade holds an end-of-stream bucket only. -/
def eos_invocation : Invocation :=
  { pool_create := APR_SUCCESS, junk := fun _ => 7, bb := [],
    get_brigade := (APR_SUCCESS, [apr_bucket.eos]) }

/-- The configuration the directive `DumpPostMaxSize -1` leaves, for a `max_size` of 64
bits and a default of 1048576, with no header configured. -/
def negative_cfg : dumpost_cfg_t :=
  dumpost_set_max_size 64 1048576 (dumpost_create_dconfig 1048576) ⟨str "-1", by decide⟩

/-- The state a first call whose brigade holds an end-of-stream bucket only leaves on the
request `plain_request` under `nul_cfg`: nothing captured, the record emitted. -/
def printed_state : request_state :=
  { buffer := [0, 7, 7, 7, 7], buffer_used := 0, header_printed := false,
    qs_printed := false, buffer_printed := true }

/-! ## Lemmas on the primitives -/

theorem info_records_append (a b : List LogEntry) :
    info_records (a ++ b) = info_records a ++ info_records b := by
  induction a with
  | nil => rfl
  | cons e t ih => cases e <;> simp [info_records, ih]

theorem warning_count_append (a b : List LogEntry) :
    warning_count (a ++ b) = warning_count a + warning_count b := by
  induction a with
  | nil => simp [warning_count]
  | cons e t ih => cases e <;> simp [warning_count, ih]; omega

theorem c_min_eq (a b : Nat) : c_min a b = min a b := by
  unfold c_min; split <;> omega

theorem strncpy_bytes_nil (n : Nat) : strncpy_bytes [] n = List.replicate n 0 := by
  simp [strncpy_bytes, cstr_of]

theorem strncpy_bytes_zero (s : List Byte) : strncpy_bytes s 0 = [] := by
  simp [strncpy_bytes, cstr_of]

theorem strncpy_bytes_cons_nul (t : List Byte) (n : Nat) :
    strncpy_bytes (0 :: t) n = List.replicate n 0 := by
  cases n <;> simp [strncpy_bytes, cstr_of]

theorem strncpy_bytes_cons_succ (a : Byte) (t : List Byte) (n : Nat) (ha : a ≠ 0) :
    strncpy_bytes (a :: t) (n + 1) = a :: strncpy_bytes t n := by
  simp [strncpy_bytes, cstr_of, ha]

theorem length_strncpy_bytes (s : List Byte) (n : Nat) : (strncpy_bytes s n).length = n := by
  have h : (cstr_of (s.take n)).length ≤ n := by
    unfold cstr_of
    have h1 := (List.takeWhile_sublist (fun b => b != 0) (l := s.take n)).length_le
    have h2 : (s.take n).length ≤ n := by simp
    omega
  simp only [strncpy_bytes, List.length_append, List.length_replicate]; omega

theorem strncpy_bytes_take (s : List Byte) (n len : Nat) (h : n ≤ len) :
    strncpy_bytes s n = (strncpy_bytes s len).take n := by
  induction s generalizing n len with
  | nil => simp [strncpy_bytes_nil, List.take_replicate, h]
  | cons a t ih =>
    by_cases ha : a = 0
    · subst ha; simp [strncpy_bytes_cons_nul, List.take_replicate, h]
    · cases n with
      | zero => simp [strncpy_bytes_zero]
      | succ n =>
        cases len with
        | zero => omega
        | succ len =>
          rw [strncpy_bytes_cons_succ _ _ _ ha, strncpy_bytes_cons_succ _ _ _ ha,
            List.take_succ_cons, ← ih n len (by omega)]

theorem strncpy_bytes_nul_free (s : List Byte) (h : s.all (fun b => b != 0) = true) :
    strncpy_bytes s s.length = s := by
  induction s with
  | nil => simp [strncpy_bytes_nil]
  | cons a t ih =>
    simp only [List.all_cons, Bool.and_eq_true, bne_iff_ne, ne_eq] at h
    rw [List.length_cons, strncpy_bytes_cons_succ _ _ _ h.1, ih h.2]

theorem take_append_take (m : Nat) (a x : List Byte) :
    (a.take m ++ x).take m = (a ++ x).take m := by
  rw [List.take_append_eq_append_take, List.take_append_eq_append_take, List.take_take]
  simp only [min_self, List.length_take]
  by_cases h : a.length ≤ m
  · rw [min_eq_right h]
  · have h1 : m - min m a.length = 0 := by omega
    have h2 : m - a.length = 0 := by omega
    rw [h1, h2]

theorem length_captured (cfg : dumpost_cfg_t) (state : request_state) (h : state_ok cfg state) :
    (captured state).length = state.buffer_used := by
  unfold captured; rw [List.length_take]; have := h.1; have := h.2; omega

/-! ## The shared summary of the steps -/

theorem Trans.used {cfg : dumpost_cfg_t} {state state1 : request_state} {x : List Byte}
    {log : List LogEntry} (h0 : state_ok cfg state) (h : Trans cfg state state1 x log) :
    state1.buffer_used = min cfg.max_size (state.buffer_used + x.length) := by
  have h1 := congrArg List.length h.cap
  rw [length_captured cfg state1 h.ok, List.length_take, List.length_append,
    length_captured cfg state h0] at h1
  exact h1

theorem Trans.refl {cfg : dumpost_cfg_t} {state : request_state} (h0 : state_ok cfg state) :
    Trans cfg state state [] [] := by
  refine ⟨h0, ?_, id, id, id, ?_, ?_⟩
  · rw [List.append_nil, List.take_of_length_le]
    rw [length_captured cfg state h0]; exact h0.2
  · cases state.buffer_printed <;> simp [info_records]
  · have := h0.2
    by_cases h : state.buffer_used < cfg.max_size
    · have : ¬ state.buffer_used = cfg.max_size := by omega
      simp [warning_count, this]
    · simp [warning_count, h]

theorem Trans.relog {cfg : dumpost_cfg_t} {state state1 : request_state} {x : List Byte}
    {log log1 : List LogEntry} (h : Trans cfg state state1 x log)
    (hi : info_records log1 = info_records log) (hw : warning_count log1 = warning_count log) :
    Trans cfg state state1 x log1 :=
  ⟨h.ok, h.cap, h.hp, h.qp, h.bp, by rw [hi]; exact h.infos, by rw [hw]; exact h.warns⟩

theorem Trans.comp {cfg : dumpost_cfg_t} {state state1 state2 : request_state}
    {x y : List Byte} {log log1 : List LogEntry} (h0 : state_ok cfg state)
    (h : Trans cfg state state1 x log) (h1 : Trans cfg state1 state2 y log1) :
    Trans cfg state state2 (x ++ y) (log ++ log1) := by
  have u1 := h.used h0
  have u2 := h1.used h.ok
  have b0 := h0.2
  refine ⟨h1.ok, ?_, fun a => h1.hp (h.hp a), fun a => h1.qp (h.qp a),
    fun a => h1.bp (h.bp a), ?_, ?_⟩
  · rw [h1.cap, h.cap, take_append_take, List.append_assoc]
  · rw [info_records_append, List.length_append, h.infos, h1.infos]
    have m1 := h.bp
    have m2 := h1.bp
    revert m1 m2
    cases state.buffer_printed <;> cases state1.buffer_printed <;>
      cases state2.buffer_printed <;> simp
  · rw [warning_count_append, h.warns, h1.warns]
    split_ifs <;> omega

theorem buffer_append_eq (cfg : dumpost_cfg_t) (state : request_state) (s : List Byte)
    (len : Nat) (h : state_ok cfg state) :
    buffer_append state cfg s len =
      some (min len (cfg.max_size - state.buffer_used),
        { state with
          buffer := state.buffer.take state.buffer_used ++
            strncpy_bytes s (min len (cfg.max_size - state.buffer_used)) ++
            state.buffer.drop (state.buffer_used + min len (cfg.max_size - state.buffer_used))
          buffer_used := state.buffer_used + min len (cfg.max_size - state.buffer_used) },
        if state.buffer_used < cfg.max_size ∧
            state.buffer_used + min len (cfg.max_size - state.buffer_used) = cfg.max_size
        then [LogEntry.warning cfg.max_size] else []) := by
  obtain ⟨hl, hu⟩ := h
  unfold buffer_append
  by_cases hf : state.buffer_used = cfg.max_size
  · have h1 : cfg.max_size - state.buffer_used = 0 := by omega
    have h2 : ¬ state.buffer_used < cfg.max_size := by omega
    cases state
    simp_all [buffer_is_full, strncpy_bytes_zero]
  · have h2 : state.buffer_used < cfg.max_size := by omega
    have h3 : state.buffer_used + min len (cfg.max_size - state.buffer_used)
        ≤ state.buffer.length := by omega
    simp only [buffer_is_full, beq_iff_eq, hf, if_false, c_min_eq, store_at,
      length_strncpy_bytes, h3, if_true, h2, true_and]
    split_ifs <;> rfl

theorem take_store (a bytes rest : List Byte) (n : Nat) (h : n = a.length + bytes.length) :
    List.take n (a ++ bytes ++ rest) = a ++ bytes := by
  subst h
  exact List.take_left' (by simp)

theorem buffer_append_trans (cfg : dumpost_cfg_t) (state : request_state) (s : List Byte)
    (len : Nat) (h : state_ok cfg state) :
    ∃ state1 log, buffer_append state cfg s len =
        some (min len (cfg.max_size - state.buffer_used), state1, log) ∧
      Trans cfg state state1 (strncpy_bytes s len) log ∧
      state1.header_printed = state.header_printed ∧
      state1.qs_printed = state.qs_printed ∧
      state1.buffer_printed = state.buffer_printed := by
  refine ⟨_, _, buffer_append_eq cfg state s len h, ?_, rfl, rfl, rfl⟩
  obtain ⟨hl, hu⟩ := h
  generalize hn : min len (cfg.max_size - state.buffer_used) = n
  have hn1 : n ≤ len := by omega
  have hn2 : n = min len (cfg.max_size - state.buffer_used) := hn.symm
  have hlen : (List.take state.buffer_used state.buffer).length = state.buffer_used := by
    rw [List.length_take]; omega
  refine ⟨⟨?_, ?_⟩, ?_, id, id, id, ?_, ?_⟩
  · simp only [List.length_append, List.length_take, List.length_drop, length_strncpy_bytes]
    omega
  · dsimp only
    omega
  · unfold captured
    dsimp only
    rw [take_store _ _ _ _ (by rw [hlen, length_strncpy_bytes]),
      List.take_append_eq_append_take, hlen]
    have e1 : List.take cfg.max_size (List.take state.buffer_used state.buffer) =
        List.take state.buffer_used state.buffer :=
      List.take_of_length_le (by rw [hlen]; exact hu)
    have e2 : List.take (cfg.max_size - state.buffer_used) (strncpy_bytes s len) =
        List.take n (strncpy_bytes s len) := by
      by_cases hc : len ≤ cfg.max_size - state.buffer_used
      · have : n = len := by omega
        rw [this, List.take_of_length_le (by rw [length_strncpy_bytes]; exact hc),
          List.take_of_length_le (by rw [length_strncpy_bytes])]
      · have : n = cfg.max_size - state.buffer_used := by omega
        rw [this]
    rw [e1, e2, strncpy_bytes_take s n len hn1]
  · have hb : ¬(state.buffer_printed = false ∧ state.buffer_printed = true) := by
      cases state.buffer_printed <;> simp
    dsimp only
    rw [if_neg hb]
    split_ifs <;> simp [info_records]
  · dsimp only
    split_ifs <;> simp [warning_count]

theorem Trans.full {cfg : dumpost_cfg_t} {state : request_state} (h0 : state_ok cfg state)
    (hf : state.buffer_used = cfg.max_size) (x : List Byte) : Trans cfg state state x [] := by
  have h := Trans.refl h0
  refine ⟨h.ok, ?_, id, id, id, h.infos, h.warns⟩
  have hl := length_captured cfg state h0
  rw [List.take_append_eq_append_take, hl, hf, Nat.sub_self, List.take_zero, List.append_nil,
    List.take_of_length_le (by rw [hl, hf])]

theorem appends_refl {cfg : dumpost_cfg_t} {state : request_state} (h0 : state_ok cfg state) :
    Appends cfg state state [] [] := ⟨Trans.refl h0, rfl, rfl, rfl⟩

theorem appends_full {cfg : dumpost_cfg_t} {state : request_state} (h0 : state_ok cfg state)
    (hf : state.buffer_used = cfg.max_size) (x : List Byte) : Appends cfg state state x [] :=
  ⟨Trans.full h0 hf x, rfl, rfl, rfl⟩

theorem appends_comp {cfg : dumpost_cfg_t} {state state1 state2 : request_state}
    {x y : List Byte} {log log1 : List LogEntry} (h0 : state_ok cfg state)
    (h : Appends cfg state state1 x log) (h1 : Appends cfg state1 state2 y log1) :
    Appends cfg state state2 (x ++ y) (log ++ log1) :=
  ⟨Trans.comp h0 h.1 h1.1, h1.2.1.trans h.2.1, h1.2.2.1.trans h.2.2.1,
    h1.2.2.2.trans h.2.2.2⟩

theorem buffer_append_appends (cfg : dumpost_cfg_t) (state : request_state) (s : List Byte)
    (len : Nat) (h : state_ok cfg state) :
    ∃ state1 log, buffer_append state cfg s len =
        some (min len (cfg.max_size - state.buffer_used), state1, log) ∧
      Appends cfg state state1 (strncpy_bytes s len) log := by
  obtain ⟨state1, log, h1, h2, h3, h4, h5⟩ := buffer_append_trans cfg state s len h
  exact ⟨state1, log, h1, h2, h3, h4, h5⟩

theorem strncpy_bytes_space : strncpy_bytes [32] 1 = [32] := by decide

theorem strncpy_bytes_cstr (s : CStr) : strncpy_bytes s.data (strlen s) = s.data :=
  strncpy_bytes_nul_free s.data s.nul_free

theorem header_loop_appends (r : request_rec) (cfg : dumpost_cfg_t) (names : List (List Byte))
    (state : request_state) (h : state_ok cfg state) :
    ∃ state1 log, header_loop r cfg names state = some (state1, log) ∧
      Appends cfg state state1 (header_segment r names) log := by
  induction names generalizing state with
  | nil => exact ⟨state, [], rfl, appends_refl h⟩
  | cons name rest ih =>
    unfold header_loop header_segment
    cases hg : apr_table_get r.headers_in name with
    | none =>
      obtain ⟨state1, log, e, a⟩ := ih state h
      exact ⟨state1, log, e, by simpa using a⟩
    | some s =>
      obtain ⟨state1, log1, e1, a1⟩ := buffer_append_appends cfg state s.data (strlen s) h
      obtain ⟨state2, log2, e2, a2⟩ := buffer_append_appends cfg state1 [32] 1 a1.1.ok
      obtain ⟨state3, log3, e3, a3⟩ := ih state2 a2.1.ok
      refine ⟨state3, log1 ++ log2 ++ log3, ?_, ?_⟩
      · simp only [e1, e2, e3]
      · rw [strncpy_bytes_cstr] at a1
        rw [strncpy_bytes_space] at a2
        exact appends_comp h (appends_comp h a1 a2) a3

theorem Trans.set_header_printed {cfg : dumpost_cfg_t} {state state1 : request_state}
    {x : List Byte} {log : List LogEntry} (h : Trans cfg state state1 x log) :
    Trans cfg state { state1 with header_printed := true } x log :=
  ⟨h.ok, h.cap, fun _ => rfl, h.qp, h.bp, h.infos, h.warns⟩

theorem Trans.set_qs_printed {cfg : dumpost_cfg_t} {state state1 : request_state}
    {x : List Byte} {log : List LogEntry} (h : Trans cfg state state1 x log) :
    Trans cfg state { state1 with qs_printed := true } x log :=
  ⟨h.ok, h.cap, h.hp, fun _ => rfl, h.bp, h.infos, h.warns⟩

theorem dump_headers_skip (r : request_rec) (cfg : dumpost_cfg_t) (state : request_state)
    (h : cfg.headers = [] ∨ buffer_is_full state cfg = true ∨ state.header_printed = true) :
    dump_headers r cfg state = some (state, []) := by
  unfold dump_headers
  rcases h with h | h | h
  · simp [h]
  · split_ifs <;> simp_all
  · split_ifs <;> simp_all

theorem dump_headers_run (r : request_rec) (cfg : dumpost_cfg_t) (state : request_state)
    (h : state_ok cfg state) (h1 : cfg.headers ≠ []) (h2 : buffer_is_full state cfg = false)
    (h3 : state.header_printed = false) :
    ∃ state1 log, dump_headers r cfg state = some ({ state1 with header_printed := true }, log) ∧
      Appends cfg state state1 (header_segment r cfg.headers) log := by
  obtain ⟨state1, log, e, a⟩ := header_loop_appends r cfg cfg.headers state h
  refine ⟨state1, log, ?_, a⟩
  have hl : cfg.headers.length > 0 := List.length_pos.mpr h1
  simp [dump_headers, hl, h2, h3, e]

theorem dump_headers_trans (r : request_rec) (cfg : dumpost_cfg_t) (state : request_state)
    (h : state_ok cfg state) (h3 : state.header_printed = false) :
    ∃ state1 log, dump_headers r cfg state = some (state1, log) ∧
      Trans cfg state state1 (header_segment r cfg.headers) log ∧
      state1.qs_printed = state.qs_printed ∧ state1.buffer_printed = state.buffer_printed ∧
      (cfg.headers = [] ∨ buffer_is_full state1 cfg = true ∨ state1.header_printed = true) := by
  by_cases h1 : cfg.headers = []
  · refine ⟨state, [], dump_headers_skip r cfg state (Or.inl h1), ?_, rfl, rfl, Or.inl h1⟩
    rw [h1]; exact Trans.refl h
  · cases h2 : buffer_is_full state cfg with
    | true =>
      refine ⟨state, [], dump_headers_skip r cfg state (Or.inr (Or.inl h2)), ?_, rfl, rfl,
        Or.inr (Or.inl h2)⟩
      exact Trans.full h (by simpa [buffer_is_full] using h2) _
    | false =>
      obtain ⟨state1, log, e, a⟩ := dump_headers_run r cfg state h h1 h2 h3
      exact ⟨_, log, e, a.1.set_header_printed, a.2.2.1, a.2.2.2, Or.inr (Or.inr rfl)⟩

theorem dump_headers_any (r : request_rec) (cfg : dumpost_cfg_t) (state : request_state)
    (h : state_ok cfg state) :
    ∃ state1 log x, dump_headers r cfg state = some (state1, log) ∧
      Trans cfg state state1 x log ∧
      state1.qs_printed = state.qs_printed ∧ state1.buffer_printed = state.buffer_printed := by
  cases h3 : state.header_printed with
  | false =>
    obtain ⟨state1, log, e, t, a, b, _⟩ := dump_headers_trans r cfg state h h3
    exact ⟨state1, log, _, e, t, a, b⟩
  | true =>
    exact ⟨state, [], [], dump_headers_skip r cfg state (Or.inr (Or.inr h3)), Trans.refl h,
      rfl, rfl⟩

theorem dump_query_string_skip (r : request_rec) (cfg : dumpost_cfg_t) (state : request_state)
    (h : query_segment r = [] ∨ buffer_is_full state cfg = true ∨ state.qs_printed = true) :
    dump_query_string r cfg state = some (state, []) := by
  unfold dump_query_string
  cases ha : r.args with
  | none => rfl
  | some args =>
    rcases h with h | h | h
    · have : args.data = [] := by
        by_contra hne
        simp [query_segment, ha, hne] at h
      simp [this]
    · simp [h]
    · simp [h]

theorem dump_query_string_run (r : request_rec) (cfg : dumpost_cfg_t) (state : request_state)
    (h : state_ok cfg state) (h1 : query_segment r ≠ [])
    (h2 : buffer_is_full state cfg = false) (h3 : state.qs_printed = false) :
    ∃ state1 log,
      dump_query_string r cfg state = some ({ state1 with qs_printed := true }, log) ∧
      Appends cfg state state1 (query_segment r) log := by
  unfold dump_query_string
  cases ha : r.args with
  | none => simp [query_segment, ha] at h1
  | some args =>
    have hne : args.data ≠ [] := by
      intro hc
      simp [query_segment, ha, hc] at h1
    obtain ⟨state1, log1, e1, a1⟩ := buffer_append_appends cfg state args.data (strlen args) h
    obtain ⟨state2, log2, e2, a2⟩ := buffer_append_appends cfg state1 [32] 1 a1.1.ok
    rw [strncpy_bytes_cstr] at a1
    rw [strncpy_bytes_space] at a2
    refine ⟨state2, log1 ++ log2, ?_, ?_⟩
    · have hh : args.data.head? ≠ none := by
        cases hd : args.data with
        | nil => exact absurd hd hne
        | cons a t => simp
      simp [h2, h3, hh, e1, e2]
    · have := appends_comp h a1 a2
      simpa [query_segment, ha, hne] using this

theorem dump_query_string_trans (r : request_rec) (cfg : dumpost_cfg_t)
    (state : request_state) (h : state_ok cfg state) (h3 : state.qs_printed = false) :
    ∃ state1 log, dump_query_string r cfg state = some (state1, log) ∧
      Trans cfg state state1 (query_segment r) log ∧
      state1.header_printed = state.header_printed ∧
      state1.buffer_printed = state.buffer_printed ∧
      (query_segment r = [] ∨ buffer_is_full state1 cfg = true ∨ state1.qs_printed = true) := by
  by_cases h1 : query_segment r = []
  · refine ⟨state, [], dump_query_string_skip r cfg state (Or.inl h1), ?_, rfl, rfl, Or.inl h1⟩
    rw [h1]; exact Trans.refl h
  · cases h2 : buffer_is_full state cfg with
    | true =>
      refine ⟨state, [], dump_query_string_skip r cfg state (Or.inr (Or.inl h2)), ?_, rfl, rfl,
        Or.inr (Or.inl h2)⟩
      exact Trans.full h (by simpa [buffer_is_full] using h2) _
    | false =>
      obtain ⟨state1, log, e, a⟩ := dump_query_string_run r cfg state h h1 h2 h3
      exact ⟨_, log, e, a.1.set_qs_printed, a.2.1, a.2.2.2, Or.inr (Or.inr rfl)⟩

theorem dump_query_string_any (r : request_rec) (cfg : dumpost_cfg_t) (state : request_state)
    (h : state_ok cfg state) :
    ∃ state1 log x, dump_query_string r cfg state = some (state1, log) ∧
      Trans cfg state state1 x log ∧
      state1.header_printed = state.header_printed ∧
      state1.buffer_printed = state.buffer_printed := by
  cases h3 : state.qs_printed with
  | false =>
    obtain ⟨state1, log, e, t, a, b, _⟩ := dump_query_string_trans r cfg state h h3
    exact ⟨state1, log, _, e, t, a, b⟩
  | true =>
    exact ⟨state, [], [], dump_query_string_skip r cfg state (Or.inr (Or.inr h3)),
      Trans.refl h, rfl, rfl⟩

theorem cstr_of_nul_free (s : List Byte) (h : s.all (fun b => b != 0) = true) :
    cstr_of s = s := by
  unfold cstr_of
  rw [List.takeWhile_eq_self_iff]
  intro x hx
  exact List.all_eq_true.mp h x hx

theorem cstr_of_append_nul (a rest : List Byte) : cstr_of (a ++ 0 :: rest) = cstr_of a := by
  induction a with
  | nil => simp [cstr_of]
  | cons x t ih =>
    by_cases hx : x = 0
    · simp [cstr_of, hx]
    · unfold cstr_of at ih ⊢
      simp [List.takeWhile_cons, hx, ih]

theorem buffer_print_skip (r : request_rec) (cfg : dumpost_cfg_t) (state : request_state)
    (hb : state.buffer_printed = true) : buffer_print r state cfg = some (state, []) := by
  simp [buffer_print, hb]

theorem buffer_print_eq (r : request_rec) (cfg : dumpost_cfg_t) (state : request_state)
    (h : state_ok cfg state) (hb : state.buffer_printed = false) :
    buffer_print r state cfg =
      some ({ state with
              buffer := state.buffer.take state.buffer_used ++ [0] ++
                state.buffer.drop (state.buffer_used + 1)
              buffer_printed := true },
        [LogEntry.info (record_of r (captured state))]) := by
  have h1 : state.buffer_used + 1 ≤ state.buffer.length := by
    have := h.1; have := h.2; omega
  simp only [buffer_print, hb, store_at, List.length_singleton, h1, if_true, record_of,
    format_record, cstr_of_nul_free _ r.method.nul_free, cstr_of_nul_free _ r.hostname.nul_free,
    cstr_of_nul_free _ r.uri.nul_free, captured]
  simp [cstr_of_append_nul]

theorem buffer_print_trans (r : request_rec) (cfg : dumpost_cfg_t) (state : request_state)
    (h : state_ok cfg state) :
    ∃ state1 log, buffer_print r state cfg = some (state1, log) ∧
      Trans cfg state state1 [] log ∧
      state1.header_printed = state.header_printed ∧
      state1.qs_printed = state.qs_printed ∧ state1.buffer_printed = true ∧
      info_records log =
        if state.buffer_printed = true then [] else [record_of r (captured state)] := by
  cases hb : state.buffer_printed with
  | true =>
    exact ⟨state, [], buffer_print_skip r cfg state hb, Trans.refl h, rfl, rfl, hb, by simp [info_records]⟩
  | false =>
    refine ⟨_, _, buffer_print_eq r cfg state h hb, ?_, rfl, rfl, rfl, by simp [info_records]⟩
    have hl := h.1
    have hu := h.2
    have hlen : (List.take state.buffer_used state.buffer).length = state.buffer_used := by
      rw [List.length_take]; omega
    have r0 := Trans.refl h
    refine ⟨⟨?_, hu⟩, ?_, id, id, fun _ => rfl, ?_, ?_⟩
    · simp only [List.length_append, List.length_take, List.length_drop,
        List.length_singleton]
      omega
    · rw [← r0.cap]
      unfold captured
      dsimp only
      rw [List.append_assoc, List.take_append_eq_append_take, hlen, Nat.sub_self,
        List.take_zero, List.append_nil, List.take_take, min_self]
    · simp [info_records, hb]
    · exact r0.warns

theorem bucket_step_trans (r : request_rec) (cfg : dumpost_cfg_t) (b : apr_bucket)
    (state : request_state) (h : state_ok cfg state) :
    ∃ state1 log, bucket_step r cfg b state = some (state1, log) ∧
      Trans cfg state state1 (strncpy_bytes (bucket_bytes b) (bucket_bytes b).length) log ∧
      state1.header_printed = state.header_printed ∧
      state1.qs_printed = state.qs_printed ∧
      state1.buffer_printed = (state.buffer_printed || (b == apr_bucket.eos)) ∧
      info_records log =
        if b = apr_bucket.eos ∧ state.buffer_printed = false then
          [record_of r (captured state)] else [] := by
  cases b with
  | data read =>
    have hne : (apr_bucket.data read == apr_bucket.eos) = false := by simp
    cases hf : buffer_is_full state cfg with
    | true =>
      refine ⟨state, [LogEntry.debug DebugMsg.data_bucket], by simp [bucket_step, hf], ?_,
        rfl, rfl, by simp [hne], by simp [info_records]⟩
      exact (Trans.full h (by simpa [buffer_is_full] using hf) _).relog rfl rfl
    | false =>
      cases read with
      | none =>
        refine ⟨state, [LogEntry.debug DebugMsg.data_bucket,
          LogEntry.debug DebugMsg.error_reading], by simp [bucket_step, hf], ?_, rfl, rfl,
          by simp [hne], by simp [info_records]⟩
        exact (Trans.refl h).relog rfl rfl
      | some ibuf =>
        by_cases hz : ibuf.length = 0
        · refine ⟨state, [LogEntry.debug DebugMsg.data_bucket],
            by simp [bucket_step, hf, hz], ?_, rfl, rfl, by simp [hne],
            by simp [info_records]⟩
          have : ibuf = [] := List.length_eq_zero.mp hz
          subst this
          exact (Trans.refl h).relog rfl rfl
        · obtain ⟨state1, log1, e1, t1, a1, a2, a3⟩ :=
            buffer_append_trans cfg state ibuf ibuf.length h
          have hi : info_records log1 = [] := by
            have := t1.infos
            rw [a3] at this
            have hb : ¬(state.buffer_printed = false ∧ state.buffer_printed = true) := by
              cases state.buffer_printed <;> simp
            rw [if_neg hb] at this
            exact List.length_eq_zero.mp this
          refine ⟨state1, [LogEntry.debug DebugMsg.data_bucket,
            LogEntry.debug (DebugMsg.bytes_read ibuf.length)] ++ log1,
            by simp [bucket_step, hf, hz, e1], ?_, a1, a2,
            by simp [hne, a3], by simp [info_records, hi]⟩
          exact t1.relog (by simp [info_records]) (by simp [warning_count])
  | eos =>
    obtain ⟨state1, log1, e1, t1, a1, a2, a3, a4⟩ := buffer_print_trans r cfg state h
    refine ⟨state1, [LogEntry.debug DebugMsg.metadata_bucket,
      LogEntry.debug DebugMsg.eos_bucket] ++ log1, by simp [bucket_step, e1], ?_, a1, a2,
      by simp [a3], ?_⟩
    · exact t1.relog (by simp [info_records]) (by simp [warning_count])
    · simp only [List.cons_append, List.nil_append, info_records, a4]
      revert a4
      cases state.buffer_printed <;> simp
  | metadata =>
    have hne : (apr_bucket.metadata == apr_bucket.eos) = false := by decide
    refine ⟨state, [LogEntry.debug DebugMsg.metadata_bucket], by simp [bucket_step], ?_,
      rfl, rfl, by simp [hne], by simp [info_records]⟩
    exact (Trans.refl h).relog rfl rfl

theorem has_eos_cons (b : apr_bucket) (rest : List apr_bucket) :
    has_eos (b :: rest) = ((b == apr_bucket.eos) || has_eos rest) := by
  simp [has_eos]

theorem brigade_loop_trans (r : request_rec) (cfg : dumpost_cfg_t) (bb : List apr_bucket)
    (state : request_state) (h : state_ok cfg state) :
    ∃ state1 log, brigade_loop r cfg bb state = some (state1, log) ∧
      Trans cfg state state1 (brigade_image bb) log ∧
      state1.header_printed = state.header_printed ∧
      state1.qs_printed = state.qs_printed ∧
      state1.buffer_printed = (state.buffer_printed || has_eos bb) ∧
      info_records log =
        if has_eos bb = true ∧ state.buffer_printed = false then
          [record_of r ((captured state ++ brigade_image (before_eos bb)).take cfg.max_size)]
        else [] := by
  induction bb generalizing state with
  | nil =>
    refine ⟨state, [], rfl, Trans.refl h, rfl, rfl, by simp [has_eos], by simp [has_eos, info_records]⟩
  | cons b rest ih =>
    obtain ⟨state1, log1, e1, t1, a1, a2, a3, a4⟩ := bucket_step_trans r cfg b state h
    obtain ⟨state2, log2, e2, t2, b1, b2, b3, b4⟩ := ih state1 t1.ok
    refine ⟨state2, log1 ++ log2, by simp [brigade_loop, e1, e2], Trans.comp h t1 t2,
      b1.trans a1, b2.trans a2, ?_, ?_⟩
    · rw [b3, a3, has_eos_cons, Bool.or_assoc]
    · rw [info_records_append, a4, b4, a3, has_eos_cons]
      by_cases hb : b = apr_bucket.eos
      · subst hb
        have c0 : List.take cfg.max_size (captured state) = captured state := by
          have := (Trans.refl h).cap
          simpa using this.symm
        cases state.buffer_printed <;> simp [before_eos, brigade_image, c0]
      · have hb1 : (b == apr_bucket.eos) = false := by simpa using hb
        have hb2 : (b != apr_bucket.eos) = true := by simp [bne, hb1]
        simp only [hb, hb1, false_and, if_false, List.nil_append, Bool.or_false,
          Bool.false_or, before_eos, List.takeWhile_cons, hb2, if_true, brigade_image]
        rw [t1.cap, take_append_take, List.append_assoc]

theorem brigade_loop_append (r : request_rec) (cfg : dumpost_cfg_t) (a b : List apr_bucket)
    (state state1 state2 : request_state) (log1 log2 : List LogEntry)
    (h1 : brigade_loop r cfg a state = some (state1, log1))
    (h2 : brigade_loop r cfg b state1 = some (state2, log2)) :
    brigade_loop r cfg (a ++ b) state = some (state2, log1 ++ log2) := by
  induction a generalizing state log1 with
  | nil =>
    simp only [brigade_loop, Option.some.injEq, Prod.mk.injEq] at h1
    obtain ⟨rfl, rfl⟩ := h1
    simpa using h2
  | cons x t ih =>
    simp only [brigade_loop, List.cons_append] at h1 ⊢
    cases hs : bucket_step r cfg x state with
    | none => simp [hs] at h1
    | some p =>
      obtain ⟨s0, l0⟩ := p
      simp only [hs] at h1 ⊢
      cases ht : brigade_loop r cfg t s0 with
      | none => simp [ht] at h1
      | some q =>
        obtain ⟨s3, l3⟩ := q
        simp only [ht, Option.some.injEq, Prod.mk.injEq] at h1
        obtain ⟨rfl, rfl⟩ := h1
        simp [ih s0 l3 ht, List.append_assoc]

theorem Trans.keeps_full {cfg : dumpost_cfg_t} {state state1 : request_state} {x : List Byte}
    {log : List LogEntry} (h0 : state_ok cfg state) (h : Trans cfg state state1 x log)
    (hf : buffer_is_full state cfg = true) : buffer_is_full state1 cfg = true := by
  have u := h.used h0
  simp only [buffer_is_full, beq_iff_eq] at hf ⊢
  omega

theorem Trans.keeps_done {r : request_rec} {cfg : dumpost_cfg_t} {state state1 : request_state}
    {x : List Byte} {log : List LogEntry} (h0 : state_ok cfg state)
    (h : Trans cfg state state1 x log) (hd : preamble_done r cfg state) :
    preamble_done r cfg state1 := by
  obtain ⟨d1, d2⟩ := hd
  constructor
  · rcases d1 with d | d | d
    · exact Or.inl d
    · exact Or.inr (Or.inl (h.keeps_full h0 d))
    · exact Or.inr (Or.inr (h.hp d))
  · rcases d2 with d | d | d
    · exact Or.inl d
    · exact Or.inr (Or.inl (h.keeps_full h0 d))
    · exact Or.inr (Or.inr (h.qp d))

theorem filter_body_eq (r : request_rec) (cfg : dumpost_cfg_t) (state state1 state2 : request_state)
    (log1 log2 : List LogEntry) (inv : Invocation)
    (h1 : dump_headers r cfg state = some (state1, log1))
    (h2 : dump_query_string r cfg state1 = some (state2, log2)) :
    (inv.get_brigade.1 ≠ APR_SUCCESS →
      filter_body r cfg state inv =
        some { status := inv.get_brigade.1, ctx := some state2, bb := inv.get_brigade.2,
               log := log1 ++ log2 }) ∧
    (inv.get_brigade.1 = APR_SUCCESS → ∀ state3 log3,
      brigade_loop r cfg inv.get_brigade.2 state2 = some (state3, log3) →
      filter_body r cfg state inv =
        some { status := inv.get_brigade.1, ctx := some state3, bb := inv.get_brigade.2,
               log := log1 ++ log2 ++ [LogEntry.debug DebugMsg.start_brigade] ++ log3 ++
                 [LogEntry.debug DebugMsg.end_brigade] }) := by
  constructor
  · intro hs
    simp [filter_body, h1, h2, hs]
  · intro hs state3 log3 h3
    simp [filter_body, h1, h2, hs, h3]

theorem fetched_buckets_single (inv : Invocation) :
    fetched_buckets true [inv] =
      if inv.get_brigade.1 = APR_SUCCESS then inv.get_brigade.2 else [] := by
  unfold fetched_buckets
  by_cases hs : inv.get_brigade.1 = APR_SUCCESS <;> simp [fetched_brigades, hs]

theorem fetched_buckets_cons_true (inv : Invocation) (rest : List Invocation) :
    fetched_buckets true (inv :: rest) =
      fetched_buckets true [inv] ++ fetched_buckets true rest := by
  unfold fetched_buckets
  by_cases hs : inv.get_brigade.1 = APR_SUCCESS <;> simp [fetched_brigades, hs]

theorem fetched_buckets_cons_created (inv : Invocation) (rest : List Invocation)
    (h : inv.pool_create = APR_SUCCESS) :
    fetched_buckets false (inv :: rest) =
      fetched_buckets true [inv] ++ fetched_buckets true rest := by
  unfold fetched_buckets
  by_cases hs : inv.get_brigade.1 = APR_SUCCESS <;> simp [fetched_brigades, hs, h]

theorem fetched_buckets_cons_failed (inv : Invocation) (rest : List Invocation)
    (h : inv.pool_create ≠ APR_SUCCESS) :
    fetched_buckets false (inv :: rest) = fetched_buckets false rest := by
  unfold fetched_buckets
  simp [fetched_brigades, h]

theorem filter_body_split (r : request_rec) (cfg : dumpost_cfg_t)
    (state state1 state2 : request_state) (log1 log2 : List LogEntry) (inv : Invocation)
    (h1 : dump_headers r cfg state = some (state1, log1))
    (h2 : dump_query_string r cfg state1 = some (state2, log2))
    (ok2 : state_ok cfg state2) :
    ∃ state3 log3 res,
      brigade_loop r cfg (fetched_buckets true [inv]) state2 = some (state3, log3) ∧
      filter_body r cfg state inv = some res ∧ res.ctx = some state3 ∧
      res.status = inv.get_brigade.1 ∧ res.bb = inv.get_brigade.2 ∧
      info_records res.log = info_records log1 ++ info_records log2 ++ info_records log3 ∧
      warning_count res.log = warning_count log1 + warning_count log2 + warning_count log3 := by
  obtain ⟨e1, e2⟩ := filter_body_eq r cfg state state1 state2 log1 log2 inv h1 h2
  rw [fetched_buckets_single]
  by_cases hs : inv.get_brigade.1 = APR_SUCCESS
  · obtain ⟨state3, log3, e3, -⟩ := brigade_loop_trans r cfg inv.get_brigade.2 state2 ok2
    refine ⟨state3, log3, _, by rw [if_pos hs]; exact e3, e2 hs state3 log3 e3, rfl, rfl, rfl,
      ?_, ?_⟩
    · simp [info_records_append, info_records]
    · simp [warning_count_append, warning_count, Nat.add_assoc]
  · refine ⟨state2, [], _, by rw [if_neg hs]; rfl, e1 hs, rfl, rfl, rfl, ?_, ?_⟩
    · simp [info_records_append, info_records]
    · simp [warning_count_append, warning_count]

theorem filter_body_done (r : request_rec) (cfg : dumpost_cfg_t) (state : request_state)
    (inv : Invocation) (h : state_ok cfg state) (hd : preamble_done r cfg state) :
    ∃ state3 log3 res,
      brigade_loop r cfg (fetched_buckets true [inv]) state = some (state3, log3) ∧
      filter_body r cfg state inv = some res ∧ res.ctx = some state3 ∧
      res.status = inv.get_brigade.1 ∧ res.bb = inv.get_brigade.2 ∧
      info_records res.log = info_records log3 ∧
      warning_count res.log = warning_count log3 := by
  obtain ⟨state3, log3, res, e3, e, c, s, b, i, w⟩ :=
    filter_body_split r cfg state state state [] [] inv (dump_headers_skip r cfg state hd.1)
      (dump_query_string_skip r cfg state hd.2) h
  exact ⟨state3, log3, res, e3, e, c, s, b, by simpa [info_records] using i,
    by simpa [warning_count] using w⟩

theorem preamble_fresh (r : request_rec) (cfg : dumpost_cfg_t) (state : request_state)
    (h : state_ok cfg state) (hp : state.header_printed = false)
    (hq : state.qs_printed = false) :
    ∃ state1 log1 state2 log2,
      dump_headers r cfg state = some (state1, log1) ∧
      dump_query_string r cfg state1 = some (state2, log2) ∧
      Trans cfg state state2 (header_segment r cfg.headers ++ query_segment r) (log1 ++ log2) ∧
      state2.buffer_printed = state.buffer_printed ∧ preamble_done r cfg state2 := by
  obtain ⟨state1, log1, e1, t1, a1, a2, a3⟩ := dump_headers_trans r cfg state h hp
  obtain ⟨state2, log2, e2, t2, b1, b2, b3⟩ :=
    dump_query_string_trans r cfg state1 t1.ok (a1.trans hq)
  refine ⟨state1, log1, state2, log2, e1, e2, Trans.comp h t1 t2, b2.trans a2, ?_, b3⟩
  rcases a3 with d | d | d
  · exact Or.inl d
  · exact Or.inr (Or.inl (t2.keeps_full t1.ok d))
  · exact Or.inr (Or.inr (b1.trans d))

theorem filter_body_any (r : request_rec) (cfg : dumpost_cfg_t) (state : request_state)
    (inv : Invocation) (h : state_ok cfg state) :
    ∃ res state3 x, filter_body r cfg state inv = some res ∧ res.ctx = some state3 ∧
      Trans cfg state state3 x res.log ∧
      res.status = inv.get_brigade.1 ∧ res.bb = inv.get_brigade.2 := by
  obtain ⟨state1, log1, x1, e1, t1, -, -⟩ := dump_headers_any r cfg state h
  obtain ⟨state2, log2, x2, e2, t2, -, -⟩ := dump_query_string_any r cfg state1 t1.ok
  obtain ⟨state3, log3, res, e3, e, c, s, b, i, w⟩ :=
    filter_body_split r cfg state state1 state2 log1 log2 inv e1 e2 t2.ok
  obtain ⟨state3', log3', e3', t3, -⟩ :=
    brigade_loop_trans r cfg (fetched_buckets true [inv]) state2 t2.ok
  rw [e3] at e3'
  simp only [Option.some.injEq, Prod.mk.injEq] at e3'
  obtain ⟨rfl, rfl⟩ := e3'
  have t := Trans.comp h (Trans.comp h t1 t2) t3
  refine ⟨res, state3, x1 ++ x2 ++ brigade_image (fetched_buckets true [inv]), e, c, ?_, s, b⟩
  exact t.relog (by rw [i]; simp [info_records_append])
    (by rw [w]; simp [warning_count_append, Nat.add_assoc])

theorem new_state_ok (cfg : dumpost_cfg_t) (junk : Nat → Byte) :
    state_ok cfg (new_state cfg junk) := by
  simp [state_ok, new_state, apr_palloc]

theorem captured_new_state (cfg : dumpost_cfg_t) (junk : Nat → Byte) :
    captured (new_state cfg junk) = [] := by
  simp [captured, new_state]

theorem brigade_loop_props (r : request_rec) (cfg : dumpost_cfg_t) (bb : List apr_bucket)
    (state state1 : request_state) (log : List LogEntry) (h : state_ok cfg state)
    (e : brigade_loop r cfg bb state = some (state1, log)) :
    Trans cfg state state1 (brigade_image bb) log ∧
      state1.header_printed = state.header_printed ∧
      state1.qs_printed = state.qs_printed ∧
      state1.buffer_printed = (state.buffer_printed || has_eos bb) ∧
      info_records log =
        if has_eos bb = true ∧ state.buffer_printed = false then
          [record_of r ((captured state ++ brigade_image (before_eos bb)).take cfg.max_size)]
        else [] := by
  obtain ⟨state2, log2, e2, p⟩ := brigade_loop_trans r cfg bb state h
  rw [e] at e2
  simp only [Option.some.injEq, Prod.mk.injEq] at e2
  obtain ⟨rfl, rfl⟩ := e2
  exact p

theorem run_filter_done_loop (r : request_rec) (cfg : dumpost_cfg_t) (invs : List Invocation)
    (state : request_state) (h : state_ok cfg state) (hd : preamble_done r cfg state) :
    ∃ state1 log l, run_filter r cfg (some state) invs = some (some state1, log) ∧
      brigade_loop r cfg (fetched_buckets true invs) state = some (state1, l) ∧
      info_records log = info_records l ∧ warning_count log = warning_count l := by
  induction invs generalizing state with
  | nil => exact ⟨state, [], [], rfl, rfl, rfl, rfl⟩
  | cons inv rest ih =>
    obtain ⟨state3, log3, res, e3, e, c, -, -, i, w⟩ := filter_body_done r cfg state inv h hd
    obtain ⟨t3, -⟩ := brigade_loop_props r cfg _ state state3 log3 h e3
    obtain ⟨state4, log4, l4, e4, f4, i4, w4⟩ := ih state3 t3.ok (t3.keeps_done h hd)
    refine ⟨state4, res.log ++ log4, log3 ++ l4, ?_, ?_, ?_, ?_⟩
    · simp [run_filter, dumpost_input_filter, e, c, e4]
    · rw [fetched_buckets_cons_true]
      exact brigade_loop_append r cfg _ _ state state3 state4 log3 l4 e3 f4
    · rw [info_records_append, info_records_append, i, i4]
    · rw [warning_count_append, warning_count_append, w, w4]

theorem Trans.no_info {cfg : dumpost_cfg_t} {state state1 : request_state} {x : List Byte}
    {log : List LogEntry} (h : Trans cfg state state1 x log)
    (hb : state1.buffer_printed = state.buffer_printed) : info_records log = [] := by
  have hi := h.infos
  rw [hb] at hi
  have hn : ¬(state.buffer_printed = false ∧ state.buffer_printed = true) := by
    cases state.buffer_printed <;> simp
  rw [if_neg hn] at hi
  exact List.length_eq_zero.mp hi

theorem run_filter_fresh (r : request_rec) (cfg : dumpost_cfg_t) (invs : List Invocation) :
    ∃ final log, run_filter r cfg none invs = some (final, log) ∧
      (((∀ inv ∈ invs, inv.pool_create ≠ APR_SUCCESS) ∧ final = none ∧
          info_records log = [] ∧ warning_count log = 0 ∧
          fetched_buckets false invs = []) ∨
       ((∃ inv ∈ invs, inv.pool_create = APR_SUCCESS) ∧ ∃ junk state, final = some state ∧
          Trans cfg (new_state cfg junk) state
            (header_segment r cfg.headers ++ query_segment r ++
              brigade_image (fetched_buckets false invs)) log ∧
          state.buffer_printed = has_eos (fetched_buckets false invs) ∧
          info_records log =
            if has_eos (fetched_buckets false invs) = true then
              [record_of r ((header_segment r cfg.headers ++ query_segment r ++
                brigade_image (before_eos (fetched_buckets false invs))).take cfg.max_size)]
            else [])) := by
  induction invs with
  | nil =>
    exact ⟨none, [], rfl, Or.inl ⟨by simp, rfl, rfl, rfl, rfl⟩⟩
  | cons inv rest ih =>
    by_cases hc : inv.pool_create = APR_SUCCESS
    · have hns := new_state_ok cfg inv.junk
      obtain ⟨state1, log1, state2, log2, e1, e2, tp, bp2, pd⟩ :=
        preamble_fresh r cfg (new_state cfg inv.junk) hns rfl rfl
      obtain ⟨state3, log3, res, e3, e, c, -, -, i, w⟩ :=
        filter_body_split r cfg _ state1 state2 log1 log2 inv e1 e2 tp.ok
      obtain ⟨t3, -⟩ := brigade_loop_props r cfg _ state2 state3 log3 tp.ok e3
      obtain ⟨state4, log4, l4, e4, f4, i4, w4⟩ :=
        run_filter_done_loop r cfg rest state3 t3.ok (t3.keeps_done tp.ok pd)
      have eall := brigade_loop_append r cfg _ _ state2 state3 state4 log3 l4 e3 f4
      rw [← fetched_buckets_cons_created inv rest hc] at eall
      obtain ⟨tall, -, -, bpall, iall⟩ := brigade_loop_props r cfg _ state2 state4 _ tp.ok eall
      have ip : info_records (log1 ++ log2) = [] := tp.no_info bp2
      have hb2 : state2.buffer_printed = false := bp2
      have hcap : captured state2 =
          (header_segment r cfg.headers ++ query_segment r).take cfg.max_size := by
        rw [tp.cap, captured_new_state, List.nil_append]
      refine ⟨some state4, res.log ++ log4, ?_, Or.inr ⟨⟨inv, by simp, hc⟩, inv.junk, state4,
        rfl, ?_, ?_, ?_⟩⟩
      · simp [run_filter, dumpost_input_filter, hc, e, c, e4]
      · refine (Trans.comp hns tp tall).relog ?_ ?_
        · simp only [info_records_append, i, i4]
          simp [List.append_assoc]
        · simp only [warning_count_append, w, w4]
          omega
      · rw [bpall, hb2, Bool.false_or]
      · rw [info_records_append, i, i4, ← info_records_append log1 log2, ip, List.nil_append,
          ← info_records_append, iall, hcap, take_append_take]
        simp [hb2]
    · obtain ⟨final, log, e, p⟩ := ih
      have hf := fetched_buckets_cons_failed inv rest hc
      have hne : (inv.pool_create != APR_SUCCESS) = true := by simpa using hc
      refine ⟨final, [LogEntry.error] ++ log, ?_, ?_⟩
      · simp [run_filter, dumpost_input_filter, hne, e]
      · rcases p with ⟨a, b, c, d, f⟩ | ⟨⟨inv1, m1, s1⟩, junk, state, a, b, c, d⟩
        · refine Or.inl ⟨?_, b, by simpa [info_records] using c,
            by simpa [warning_count] using d, by rw [hf]; exact f⟩
          intro inv2 m2
          rcases List.mem_cons.mp m2 with rfl | m2
          · exact hc
          · exact a inv2 m2
        · refine Or.inr ⟨⟨inv1, List.mem_cons_of_mem _ m1, s1⟩, junk, state, a, ?_, ?_, ?_⟩
          · rw [hf]
            exact b.relog (by simp [info_records]) (by simp [warning_count])
          · rw [hf]; exact c
          · rw [hf]
            simpa [info_records] using d

/-! ## The claims -/

theorem length_brigade_image (bb : List apr_bucket) :
    (brigade_image bb).length = (brigade_bytes bb).length := by
  induction bb with
  | nil => rfl
  | cons b rest ih => simp [brigade_image, brigade_bytes, length_strncpy_bytes, ih]

theorem brigade_image_nul_free (bb : List apr_bucket)
    (h : ∀ b ∈ bb, (bucket_bytes b).all (fun c => c != 0) = true) :
    brigade_image bb = brigade_bytes bb := by
  induction bb with
  | nil => rfl
  | cons b rest ih =>
    rw [brigade_image, brigade_bytes, strncpy_bytes_nul_free _ (h b (by simp)),
      ih (fun c hc => h c (List.mem_cons_of_mem _ hc))]

theorem take_min_length (m : Nat) (l : List Byte) : l.take (min m l.length) = l.take m := by
  by_cases h : m ≤ l.length
  · rw [min_eq_left h]
  · have h1 : l.length ≤ m := by omega
    rw [min_eq_right h1, List.take_of_length_le h1, List.take_of_length_le (le_refl _)]

theorem has_eos_fetched (has_state : Bool) (invs : List Invocation) :
    has_eos (fetched_buckets has_state invs) = true ↔
      ∃ bb ∈ fetched_brigades has_state invs, apr_bucket.eos ∈ bb := by
  simp only [has_eos, fetched_buckets, List.any_eq_true, List.mem_flatten, beq_iff_eq]
  constructor
  · rintro ⟨b, ⟨bb, h1, h2⟩, rfl⟩
    exact ⟨bb, h1, h2⟩
  · rintro ⟨bb, h1, h2⟩
    exact ⟨_, ⟨bb, h1, h2⟩, rfl⟩

theorem run_filter_is_some (r : request_rec) (cfg : dumpost_cfg_t) (invs : List Invocation)
    (final : Option request_state) (log : List LogEntry)
    (h : run_filter r cfg none invs = some (final, log)) :
    final.isSome = invs.any (fun inv => inv.pool_create == APR_SUCCESS) := by
  obtain ⟨final1, log1, e, p⟩ := run_filter_fresh r cfg invs
  rw [h] at e
  simp only [Option.some.injEq, Prod.mk.injEq] at e
  obtain ⟨rfl, rfl⟩ := e
  rcases p with ⟨a, b, -⟩ | ⟨⟨inv, m, s⟩, -, state, b, -⟩
  · subst b
    symm
    simp only [Option.isSome_none, List.any_eq_false, beq_iff_eq]
    exact a
  · subst b
    symm
    simp only [Option.isSome_some, List.any_eq_true, beq_iff_eq]
    exact ⟨inv, m, s⟩

/-- C1, as stated, fails: a body chunk holding a zero byte is not captured as it arrived.
With `max_size = 4`, no header and no query string, the chunk `a`, zero, `b` leaves the
captured bytes `a`, zero, zero, while the first bytes of `H·Q·B` are `a`, zero, `b`. -/
theorem C1_counterexample :
    (run_filter plain_request nul_cfg none [nul_invocation]).map
        (fun p => p.1.map captured) = some (some [97, 0, 0]) ∧
      (header_segment plain_request nul_cfg.headers ++ query_segment plain_request ++
        brigade_bytes (fetched_buckets false [nul_invocation])).take
          (min nul_cfg.max_size
            (header_segment plain_request nul_cfg.headers ++ query_segment plain_request ++
              brigade_bytes (fetched_buckets false [nul_invocation])).length) = [97, 0, 98] := by
  decide

/-- C1, amended: for every configuration, every request and every sequence of
`dumpost_input_filter` calls whose successfully fetched data chunks carry no zero byte,
the calls all return, a state exists exactly when some call could create it, and then the
captured bytes `buffer[0..buffer_used)` are the first `min(max_size, |H·Q·B|)` bytes of
`H·Q·B`, with `H` the header segment, `Q` the query-string segment and `B` the bytes of
the successfully read data chunks in arrival order. -/
theorem C1_captured_is_truncated_concatenation (r : request_rec) (cfg : dumpost_cfg_t)
    (invs : List Invocation)
    (hnul : ∀ b ∈ fetched_buckets false invs,
      (bucket_bytes b).all (fun c => c != 0) = true) :
    ∃ final log, run_filter r cfg none invs = some (final, log) ∧
      final.isSome = invs.any (fun inv => inv.pool_create == APR_SUCCESS) ∧
      ∀ state, final = some state →
        captured state =
          (header_segment r cfg.headers ++ query_segment r ++
            brigade_bytes (fetched_buckets false invs)).take
            (min cfg.max_size
              (header_segment r cfg.headers ++ query_segment r ++
                brigade_bytes (fetched_buckets false invs)).length) := by
  obtain ⟨final, log, e, p⟩ := run_filter_fresh r cfg invs
  refine ⟨final, log, e, run_filter_is_some r cfg invs final log e, ?_⟩
  intro state hs
  rcases p with ⟨-, b, -⟩ | ⟨-, junk, state1, b, t, -⟩
  · rw [b] at hs; exact absurd hs (by simp)
  · rw [b] at hs
    simp only [Option.some.injEq] at hs
    subst hs
    rw [take_min_length, t.cap, captured_new_state, List.nil_append,
      brigade_image_nul_free _ hnul]

/-- C1, amended, at the scenario "small POST captured entirely". -/
theorem C1_captured_is_truncated_concatenation_witness :
    (∀ b ∈ fetched_buckets false post_invocations,
      (bucket_bytes b).all (fun c => c != 0) = true) ∧
    ∃ final log, run_filter post_request post_cfg none post_invocations = some (final, log) ∧
      final.isSome = post_invocations.any (fun inv => inv.pool_create == APR_SUCCESS) ∧
      ∀ state, final = some state →
        captured state =
          (header_segment post_request post_cfg.headers ++ query_segment post_request ++
            brigade_bytes (fetched_buckets false post_invocations)).take
            (min post_cfg.max_size
              (header_segment post_request post_cfg.headers ++ query_segment post_request ++
                brigade_bytes (fetched_buckets false post_invocations)).length) :=
  ⟨by decide, C1_captured_is_truncated_concatenation post_request post_cfg post_invocations
    (by decide)⟩

theorem dumpost_input_filter_any (r : request_rec) (cfg : dumpost_cfg_t)
    (state : request_state) (inv : Invocation) (h : state_ok cfg state) :
    ∃ res state1 x, dumpost_input_filter r cfg (some state) inv = some res ∧
      res.ctx = some state1 ∧ Trans cfg state state1 x res.log ∧
      res.status = inv.get_brigade.1 ∧ res.bb = inv.get_brigade.2 :=
  filter_body_any r cfg state inv h

theorem dumpost_input_filter_create (r : request_rec) (cfg : dumpost_cfg_t) (inv : Invocation)
    (hc : inv.pool_create = APR_SUCCESS) :
    dumpost_input_filter r cfg none inv =
      dumpost_input_filter r cfg (some (new_state cfg inv.junk)) inv := by
  simp [dumpost_input_filter, hc]

theorem dumpost_input_filter_no_pool (r : request_rec) (cfg : dumpost_cfg_t) (inv : Invocation)
    (hc : inv.pool_create ≠ APR_SUCCESS) :
    dumpost_input_filter r cfg none inv =
      some { status := inv.pool_create, ctx := none, bb := inv.bb, log := [LogEntry.error] } := by
  have hne : (inv.pool_create != APR_SUCCESS) = true := by simpa using hc
  simp [dumpost_input_filter, hne]

/-- C2: `0 ≤ buffer_used ≤ max_size` (with the buffer of `max_size + 1` bytes) holds of
the state `dumpost_input_filter` creates, and from a state where it holds `buffer_append`
(any input, any length), `buffer_print` and `dumpost_input_filter` (any brigade, with the
state present or still to be created) return with a state where it holds. -/
theorem C2_buffer_used_within_max_size (r : request_rec) (cfg : dumpost_cfg_t)
    (state : request_state) (s : List Byte) (len : Nat) (inv : Invocation) (junk : Nat → Byte)
    (h : state_ok cfg state) :
    state_ok cfg (new_state cfg junk) ∧ (new_state cfg junk).buffer_used = 0 ∧
    (∃ n state1 log, buffer_append state cfg s len = some (n, state1, log) ∧
      state_ok cfg state1 ∧ state1.buffer_used ≤ cfg.max_size) ∧
    (∃ state1 log, buffer_print r state cfg = some (state1, log) ∧
      state_ok cfg state1 ∧ state1.buffer_used ≤ cfg.max_size) ∧
    (∃ res state1, dumpost_input_filter r cfg (some state) inv = some res ∧
      res.ctx = some state1 ∧ state_ok cfg state1 ∧ state1.buffer_used ≤ cfg.max_size) ∧
    (∃ res, dumpost_input_filter r cfg none inv = some res ∧
      ∀ state1, res.ctx = some state1 →
        state_ok cfg state1 ∧ state1.buffer_used ≤ cfg.max_size) := by
  refine ⟨new_state_ok cfg junk, rfl, ?_, ?_, ?_, ?_⟩
  · obtain ⟨state1, log, e, t, -⟩ := buffer_append_trans cfg state s len h
    exact ⟨_, state1, log, e, t.ok, t.ok.2⟩
  · obtain ⟨state1, log, e, t, -⟩ := buffer_print_trans r cfg state h
    exact ⟨state1, log, e, t.ok, t.ok.2⟩
  · obtain ⟨res, state1, x, e, c, t, -⟩ := dumpost_input_filter_any r cfg state inv h
    exact ⟨res, state1, e, c, t.ok, t.ok.2⟩
  · by_cases hc : inv.pool_create = APR_SUCCESS
    · obtain ⟨res, state1, x, e, c, t, -⟩ :=
        dumpost_input_filter_any r cfg (new_state cfg inv.junk) inv (new_state_ok cfg inv.junk)
      refine ⟨res, by rw [dumpost_input_filter_create r cfg inv hc]; exact e, ?_⟩
      intro state2 h2
      rw [c] at h2
      simp only [Option.some.injEq] at h2
      subst h2
      exact ⟨t.ok, t.ok.2⟩
    · refine ⟨_, dumpost_input_filter_no_pool r cfg inv hc, ?_⟩
      intro state2 h2
      exact absurd h2 (by simp)

/-- C2 at the scenario "small POST captured entirely", from the state the first call
creates. -/
theorem C2_buffer_used_within_max_size_witness :
    state_ok post_cfg (new_state post_cfg (fun _ => 7)) ∧
    (state_ok post_cfg (new_state post_cfg (fun _ => 7)) ∧
      (new_state post_cfg (fun _ => 7)).buffer_used = 0 ∧
    (∃ n state1 log, buffer_append (new_state post_cfg (fun _ => 7)) post_cfg (str "a=1&") 4 =
        some (n, state1, log) ∧
      state_ok post_cfg state1 ∧ state1.buffer_used ≤ post_cfg.max_size) ∧
    (∃ state1 log, buffer_print post_request (new_state post_cfg (fun _ => 7)) post_cfg =
        some (state1, log) ∧
      state_ok post_cfg state1 ∧ state1.buffer_used ≤ post_cfg.max_size) ∧
    (∃ res state1, dumpost_input_filter post_request post_cfg
        (some (new_state post_cfg (fun _ => 7))) nul_invocation = some res ∧
      res.ctx = some state1 ∧ state_ok post_cfg state1 ∧
      state1.buffer_used ≤ post_cfg.max_size) ∧
    (∃ res, dumpost_input_filter post_request post_cfg none nul_invocation = some res ∧
      ∀ state1, res.ctx = some state1 →
        state_ok post_cfg state1 ∧ state1.buffer_used ≤ post_cfg.max_size)) :=
  ⟨by decide, C2_buffer_used_within_max_size post_request post_cfg
    (new_state post_cfg (fun _ => 7)) (str "a=1&") 4 nul_invocation (fun _ => 7) (by decide)⟩

/-- C3: when at least one successfully fetched brigade holds an end-of-stream marker, the
calls all return and exactly one informational record is emitted in total; it is the
record made of the bytes captured up to the first end-of-stream marker, the one
`buffer_print` emits on visiting that marker while `buffer_printed` is unset; and visiting
an end-of-stream marker once `buffer_printed` is set emits nothing and leaves the state as
it is. -/
theorem C3_exactly_one_record (r : request_rec) (cfg : dumpost_cfg_t)
    (invs : List Invocation)
    (h : ∃ bb ∈ fetched_brigades false invs, apr_bucket.eos ∈ bb) :
    (∃ final log, run_filter r cfg none invs = some (final, log) ∧
      (info_records log).length = 1 ∧
      info_records log =
        [record_of r ((header_segment r cfg.headers ++ query_segment r ++
          brigade_image (before_eos (fetched_buckets false invs))).take cfg.max_size)]) ∧
    (∀ state, state_ok cfg state → state.buffer_printed = false →
      ∃ state1, bucket_step r cfg apr_bucket.eos state =
          some (state1, [LogEntry.debug DebugMsg.metadata_bucket,
            LogEntry.debug DebugMsg.eos_bucket,
            LogEntry.info (record_of r (captured state))]) ∧
        state1.buffer_printed = true) ∧
    (∀ state, state.buffer_printed = true →
      buffer_print r state cfg = some (state, []) ∧
      bucket_step r cfg apr_bucket.eos state =
        some (state, [LogEntry.debug DebugMsg.metadata_bucket,
          LogEntry.debug DebugMsg.eos_bucket])) := by
  refine ⟨?_, ?_, ?_⟩
  · obtain ⟨final, log, e, p⟩ := run_filter_fresh r cfg invs
    have he := (has_eos_fetched false invs).mpr h
    rcases p with ⟨-, -, -, -, f⟩ | ⟨-, junk, state, -, -, -, i⟩
    · rw [f] at he
      simp [has_eos] at he
    · rw [if_pos he] at i
      exact ⟨final, log, e, by rw [i]; rfl, i⟩
  · intro state hs hb
    refine ⟨{ state with
        buffer := state.buffer.take state.buffer_used ++ [0] ++
          state.buffer.drop (state.buffer_used + 1)
        buffer_printed := true }, ?_, rfl⟩
    simp only [bucket_step, buffer_print_eq r cfg state hs hb]
    rfl
  · intro state hb
    refine ⟨buffer_print_skip r cfg state hb, ?_⟩
    simp [bucket_step, buffer_print_skip r cfg state hb]

/-- C3 at the scenario "small POST captured entirely". -/
theorem C3_exactly_one_record_witness :
    (∃ bb ∈ fetched_brigades false post_invocations, apr_bucket.eos ∈ bb) ∧
    (∃ final log, run_filter post_request post_cfg none post_invocations = some (final, log) ∧
      (info_records log).length = 1 ∧
      info_records log = [str "POST h/p application/x-www-form-urlencoded a=1&b=2"]) := by
  have h : ∃ bb ∈ fetched_brigades false post_invocations, apr_bucket.eos ∈ bb := by decide
  obtain ⟨final, log, e, l, i⟩ := (C3_exactly_one_record post_request post_cfg post_invocations h).1
  refine ⟨h, final, log, e, l, ?_⟩
  rw [i]
  decide

/-- C4: when no successfully fetched brigade holds an end-of-stream marker, however many
calls there are and whatever body they carry, the calls all return and no informational
record is emitted. -/
theorem C4_no_record_without_eos (r : request_rec) (cfg : dumpost_cfg_t)
    (invs : List Invocation)
    (h : ∀ bb ∈ fetched_brigades false invs, apr_bucket.eos ∉ bb) :
    ∃ final log, run_filter r cfg none invs = some (final, log) ∧ info_records log = [] := by
  obtain ⟨final, log, e, p⟩ := run_filter_fresh r cfg invs
  refine ⟨final, log, e, ?_⟩
  rcases p with ⟨-, -, i, -⟩ | ⟨-, junk, state, -, -, -, i⟩
  · exact i
  · have he : ¬ has_eos (fetched_buckets false invs) = true := by
      rw [has_eos_fetched]
      rintro ⟨bb, h1, h2⟩
      exact h bb h1 h2
    rw [if_neg he] at i
    exact i

/-- C4 at a request given up after two calls that carried body bytes. -/
theorem C4_no_record_without_eos_witness :
    (∀ bb ∈ fetched_brigades false [nul_invocation, nul_invocation], apr_bucket.eos ∉ bb) ∧
    ∃ final log, run_filter plain_request nul_cfg none [nul_invocation, nul_invocation] =
      some (final, log) ∧ info_records log = [] :=
  ⟨by decide, C4_no_record_without_eos plain_request nul_cfg [nul_invocation, nul_invocation]
    (by decide)⟩

/-- C5: in every call of `dumpost_input_filter` in which the state exists or can be
created, whatever the configuration and the state, the call returns, its status is the
status of `ap_get_brigade` and the brigade it leaves is the brigade `ap_get_brigade`
produced. -/
theorem C5_pure_observer (r : request_rec) (cfg : dumpost_cfg_t) (ctx : Option request_state)
    (inv : Invocation) (hctx : ∀ state, ctx = some state → state_ok cfg state)
    (halloc : ctx = none → inv.pool_create = APR_SUCCESS) :
    ∃ res, dumpost_input_filter r cfg ctx inv = some res ∧
      res.status = inv.get_brigade.1 ∧ res.bb = inv.get_brigade.2 := by
  cases ctx with
  | some state =>
    obtain ⟨res, -, -, e, -, -, s, b⟩ := dumpost_input_filter_any r cfg state inv (hctx state rfl)
    exact ⟨res, e, s, b⟩
  | none =>
    obtain ⟨res, -, -, e, -, -, s, b⟩ :=
      dumpost_input_filter_any r cfg (new_state cfg inv.junk) inv (new_state_ok cfg inv.junk)
    exact ⟨res, by rw [dumpost_input_filter_create r cfg inv (halloc rfl)]; exact e, s, b⟩

/-- C5 at the second call of the scenario "body with a zero byte". -/
theorem C5_pure_observer_witness :
    (∀ state, some nul_state = some state → state_ok nul_cfg state) ∧
    (some nul_state = none → nul_invocation.pool_create = APR_SUCCESS) ∧
    ∃ res, dumpost_input_filter plain_request nul_cfg (some nul_state) nul_invocation =
        some res ∧
      res.status = nul_invocation.get_brigade.1 ∧ res.bb = nul_invocation.get_brigade.2 :=
  have h1 : ∀ state, some nul_state = some state → state_ok nul_cfg state := by
    intro state h
    cases h
    decide
  have h2 : some nul_state = none → nul_invocation.pool_create = APR_SUCCESS := by
    intro h
    cases h
  ⟨h1, h2, C5_pure_observer plain_request nul_cfg (some nul_state) nul_invocation h1 h2⟩

/-- C6: when `ap_get_brigade` fails in a call of `dumpost_input_filter` on the state
`state` (present, or just created), the call returns that status, the state it leaves is
the one the header step and then the query-string step make of `state`, with
`buffer_printed` as before, and its log is the log of these two steps, which holds no
informational record. -/
theorem C6_downstream_failure (r : request_rec) (cfg : dumpost_cfg_t)
    (ctx : Option request_state) (state : request_state) (inv : Invocation)
    (hctx : (ctx = some state ∧ state_ok cfg state) ∨
      (ctx = none ∧ inv.pool_create = APR_SUCCESS ∧ state = new_state cfg inv.junk))
    (hfail : inv.get_brigade.1 ≠ APR_SUCCESS) :
    ∃ state1 log1 state2 log2,
      dump_headers r cfg state = some (state1, log1) ∧
      dump_query_string r cfg state1 = some (state2, log2) ∧
      dumpost_input_filter r cfg ctx inv =
        some { status := inv.get_brigade.1, ctx := some state2, bb := inv.get_brigade.2,
               log := log1 ++ log2 } ∧
      info_records (log1 ++ log2) = [] ∧
      state2.buffer_printed = state.buffer_printed := by
  have hok : state_ok cfg state := by
    rcases hctx with ⟨-, h⟩ | ⟨-, -, h⟩
    · exact h
    · rw [h]; exact new_state_ok cfg inv.junk
  have hrun : dumpost_input_filter r cfg ctx inv = filter_body r cfg state inv := by
    rcases hctx with ⟨h, -⟩ | ⟨h, hc, hs⟩
    · rw [h]; rfl
    · rw [h, hs, dumpost_input_filter_create r cfg inv hc]; rfl
  obtain ⟨state1, log1, x1, e1, t1, -, b1⟩ := dump_headers_any r cfg state hok
  obtain ⟨state2, log2, x2, e2, t2, -, b2⟩ := dump_query_string_any r cfg state1 t1.ok
  refine ⟨state1, log1, state2, log2, e1, e2, ?_, ?_, b2.trans b1⟩
  · rw [hrun]
    exact (filter_body_eq r cfg state state1 state2 log1 log2 inv e1 e2).1 hfail
  · rw [info_records_append, t1.no_info b1, t2.no_info b2]
    rfl

/-- C6 at the first call of the scenario "small POST captured entirely", with the
downstream read failing. -/
theorem C6_downstream_failure_witness :
    ((none = some (new_state post_cfg failed_invocation.junk) ∧
        state_ok post_cfg (new_state post_cfg failed_invocation.junk)) ∨
      ((none : Option request_state) = none ∧ failed_invocation.pool_create = APR_SUCCESS ∧
        new_state post_cfg failed_invocation.junk =
          new_state post_cfg failed_invocation.junk)) ∧
    failed_invocation.get_brigade.1 ≠ APR_SUCCESS ∧
    ∃ state1 log1 state2 log2,
      dump_headers post_request post_cfg (new_state post_cfg failed_invocation.junk) =
        some (state1, log1) ∧
      dump_query_string post_request post_cfg state1 = some (state2, log2) ∧
      dumpost_input_filter post_request post_cfg none failed_invocation =
        some { status := failed_invocation.get_brigade.1, ctx := some state2,
               bb := failed_invocation.get_brigade.2, log := log1 ++ log2 } ∧
      info_records (log1 ++ log2) = [] ∧
      state2.buffer_printed = (new_state post_cfg failed_invocation.junk).buffer_printed :=
  ⟨Or.inr ⟨rfl, rfl, rfl⟩, by decide,
    C6_downstream_failure post_request post_cfg none (new_state post_cfg failed_invocation.junk)
      failed_invocation (Or.inr ⟨rfl, rfl, rfl⟩) (by decide)⟩

/-- C7, as stated, fails: the record stops at the first zero byte of the captured bytes.
The state `nul_state`, which the call of the scenario "body with a zero byte" leaves, has
`buffer_printed` unset and the captured bytes `a`, zero, zero; `buffer_print` emits
`POST h/p a`, not the text that ends in the three captured bytes. -/
theorem C7_counterexample :
    (run_filter plain_request nul_cfg none [nul_invocation]).map (fun p => p.1) =
        some (some nul_state) ∧
      nul_state.buffer_printed = false ∧ captured nul_state = [97, 0, 0] ∧
      (buffer_print plain_request nul_state nul_cfg).map (fun p => p.2) =
        some [LogEntry.info (str "POST h/p a")] ∧
      raw_record_of plain_request (captured nul_state) = str "POST h/p a" ++ [0, 0] ∧
      str "POST h/p a" ≠ raw_record_of plain_request (captured nul_state) := by
  decide

/-- C7, amended: for every state with `buffer_printed` unset, `buffer_print` returns and
emits one record: the method, one space, the hostname immediately followed by the URI, one
space, then the captured bytes `buffer[0..buffer_used)` before their first zero byte;
these are all the captured bytes, with nothing added, dropped or escaped, when none of
them is zero.  In the scenario "small POST captured entirely" the record is
`POST h/p application/x-www-form-urlencoded a=1&b=2`. -/
theorem C7_record_format (r : request_rec) (cfg : dumpost_cfg_t) (state : request_state)
    (h : state_ok cfg state) (hb : state.buffer_printed = false) :
    (∃ state1, buffer_print r state cfg =
      some (state1, [LogEntry.info (r.method.data ++ [32] ++ r.hostname.data ++ r.uri.data ++
        [32] ++ (captured state).takeWhile (fun b => b != 0))])) ∧
    ((captured state).all (fun b => b != 0) = true →
      ∃ state1, buffer_print r state cfg =
        some (state1, [LogEntry.info (raw_record_of r (captured state))])) ∧
    (run_filter post_request post_cfg none post_invocations).map
        (fun p => info_records p.2) =
      some [str "POST h/p application/x-www-form-urlencoded a=1&b=2"] := by
  refine ⟨⟨_, buffer_print_eq r cfg state h hb⟩, ?_, by decide⟩
  intro hz
  rw [buffer_print_eq r cfg state h hb, record_of, cstr_of_nul_free _ hz]
  exact ⟨_, rfl⟩

/-- C7, amended, at the state the first call of the scenario "small POST captured
entirely" creates. -/
theorem C7_record_format_witness :
    state_ok post_cfg (new_state post_cfg (fun _ => 7)) ∧
    (new_state post_cfg (fun _ => 7)).buffer_printed = false ∧
    ∃ state1, buffer_print post_request (new_state post_cfg (fun _ => 7)) post_cfg =
      some (state1, [LogEntry.info (str "POST h/p ")]) :=
  ⟨by decide, rfl,
    (C7_record_format post_request post_cfg (new_state post_cfg (fun _ => 7)) (by decide)
      rfl).1⟩

/-- C8: the calls on a request all return and, when a state exists at the end, its
`buffer_used` is `min(max_size, |H| + |Q| + |B|)`, of which `min(max_size, |H| + |Q|)` are
what the header and query-string steps leave on the state just created, so that the body
bytes captured number `min(|B|, max_size - (|H| + |Q|))`, the difference being `0` when it
is not positive.  In the scenario "body truncated to cap" the captured bytes are
`01234567`, the record is `POST h/p 01234567` and one fullness warning is logged. -/
theorem C8_body_bytes_captured (r : request_rec) (cfg : dumpost_cfg_t)
    (invs : List Invocation) (junk : Nat → Byte) :
    (∃ final log, run_filter r cfg none invs = some (final, log) ∧
      final.isSome = invs.any (fun inv => inv.pool_create == APR_SUCCESS) ∧
      ∀ state, final = some state →
        state.buffer_used =
          min cfg.max_size ((header_segment r cfg.headers).length + (query_segment r).length +
            (brigade_bytes (fetched_buckets false invs)).length) ∧
        state.buffer_used -
            min cfg.max_size ((header_segment r cfg.headers).length + (query_segment r).length) =
          min (brigade_bytes (fetched_buckets false invs)).length
            (cfg.max_size -
              ((header_segment r cfg.headers).length + (query_segment r).length))) ∧
    (∃ state1 log1 state2 log2,
      dump_headers r cfg (new_state cfg junk) = some (state1, log1) ∧
      dump_query_string r cfg state1 = some (state2, log2) ∧
      state2.buffer_used =
        min cfg.max_size ((header_segment r cfg.headers).length + (query_segment r).length)) ∧
    (run_filter plain_request trunc_cfg none [trunc_invocation]).map
        (fun p => (p.1.map captured, info_records p.2, warning_count p.2)) =
      some (some (str "01234567"), [str "POST h/p 01234567"], 1) := by
  refine ⟨?_, ?_, by decide⟩
  · obtain ⟨final, log, e, p⟩ := run_filter_fresh r cfg invs
    refine ⟨final, log, e, run_filter_is_some r cfg invs final log e, ?_⟩
    intro state hs
    rcases p with ⟨-, b, -⟩ | ⟨-, junk1, state1, b, t, -⟩
    · rw [b] at hs; exact absurd hs (by simp)
    · rw [b] at hs
      simp only [Option.some.injEq] at hs
      subst hs
      have u := t.used (new_state_ok cfg junk1)
      simp only [List.length_append, length_brigade_image] at u
      have z : (new_state cfg junk1).buffer_used = 0 := rfl
      rw [z] at u
      constructor
      · rw [u]; congr 1; omega
      · rw [u]; omega
  · obtain ⟨state1, log1, state2, log2, e1, e2, t, -⟩ :=
      preamble_fresh r cfg (new_state cfg junk) (new_state_ok cfg junk) rfl rfl
    refine ⟨state1, log1, state2, log2, e1, e2, ?_⟩
    have u := t.used (new_state_ok cfg junk)
    have z : (new_state cfg junk).buffer_used = 0 := rfl
    simp only [List.length_append] at u
    rw [z] at u
    rw [u]; congr 1; omega

/-- C9: from a state with `buffer_used ≤ max_size`, for every input and every length
`len`, `buffer_append` returns `n = min(len, max_size - buffer_used)`, sets `buffer_used`
to `buffer_used + n` and leaves the bytes at the indices below the old `buffer_used` as
they were; when the buffer is already full it returns `0` and the state it leaves is the
state it got, with no log line. -/
theorem C9_append_saturating (cfg : dumpost_cfg_t) (state : request_state) (s : List Byte)
    (len : Nat) (h : state_ok cfg state) :
    (∃ state1 log, buffer_append state cfg s len =
        some (min len (cfg.max_size - state.buffer_used), state1, log) ∧
      state1.buffer_used = state.buffer_used + min len (cfg.max_size - state.buffer_used) ∧
      state1.buffer_used ≤ cfg.max_size ∧
      state1.buffer.length = state.buffer.length ∧
      ∀ i, i < state.buffer_used → state1.buffer[i]? = state.buffer[i]?) ∧
    (state.buffer_used = cfg.max_size → buffer_append state cfg s len = some (0, state, [])) := by
  constructor
  · obtain ⟨state1, log, e, t, -⟩ := buffer_append_trans cfg state s len h
    have e0 := buffer_append_eq cfg state s len h
    rw [e] at e0
    simp only [Option.some.injEq, Prod.mk.injEq, true_and] at e0
    refine ⟨state1, log, e, ?_, t.ok.2, ?_, ?_⟩
    · rw [e0.1]
    · rw [t.ok.1, h.1]
    · intro i hi
      rw [e0.1]
      dsimp only
      have hl : (List.take state.buffer_used state.buffer).length = state.buffer_used := by
        rw [List.length_take]; have := h.1; have := h.2; omega
      rw [List.append_assoc, List.getElem?_append_left (by rw [hl]; exact hi),
        List.getElem?_take_of_lt hi]
  · intro hf
    simp [buffer_append, buffer_is_full, hf]

/-- C9 at an append of ten bytes to a fresh buffer of `max_size = 8`. -/
theorem C9_append_saturating_witness :
    state_ok trunc_cfg (new_state trunc_cfg (fun _ => 7)) ∧
    ∃ state1 log, buffer_append (new_state trunc_cfg (fun _ => 7)) trunc_cfg
        (str "0123456789") 10 = some (8, state1, log) ∧
      state1.buffer_used = 8 :=
  have h := (C9_append_saturating trunc_cfg (new_state trunc_cfg (fun _ => 7))
    (str "0123456789") 10 (by decide)).1
  ⟨by decide, h.elim (fun state1 h1 => h1.elim (fun log h2 => ⟨state1, log, h2.1, h2.2.1⟩))⟩

theorem run_ops_trans (r : request_rec) (cfg : dumpost_cfg_t) (ops : List Op)
    (state : request_state) (h : state_ok cfg state) :
    ∃ state1 log x, run_ops r cfg state ops = some (state1, log) ∧
      Trans cfg state state1 x log := by
  induction ops generalizing state with
  | nil => exact ⟨state, [], [], rfl, Trans.refl h⟩
  | cons op rest ih =>
    cases op with
    | append s len =>
      obtain ⟨state1, log1, e1, t1, -⟩ := buffer_append_trans cfg state s len h
      obtain ⟨state2, log2, x2, e2, t2⟩ := ih state1 t1.ok
      exact ⟨state2, log1 ++ log2, strncpy_bytes s len ++ x2, by simp [run_ops, e1, e2],
        Trans.comp h t1 t2⟩
    | filter inv =>
      obtain ⟨res, state1, x1, e1, c1, t1, -⟩ := dumpost_input_filter_any r cfg state inv h
      obtain ⟨state2, log2, x2, e2, t2⟩ := ih state1 t1.ok
      exact ⟨state2, res.log ++ log2, x1 ++ x2, by simp [run_ops, e1, c1, e2],
        Trans.comp h t1 t2⟩

theorem Trans.warning_le_one {cfg : dumpost_cfg_t} {state state1 : request_state}
    {x : List Byte} {log : List LogEntry} (h : Trans cfg state state1 x log) :
    warning_count log ≤ 1 := by
  rw [h.warns]
  split_ifs <;> omega

/-- C10: from a state with `buffer_used ≤ max_size`, a `buffer_append` logs the fullness
warning exactly when it moves `buffer_used` from below `max_size` to `max_size`, and
nothing otherwise; over every sequence of `buffer_append` and `dumpost_input_filter` calls
on the state the warnings number one when the sequence moves `buffer_used` from below
`max_size` to `max_size` and none otherwise, so at most one, and none once the buffer is
full, which it then stays; and the calls of the filter on one request log at most one
warning. -/
theorem C10_warning_at_most_once (r : request_rec) (cfg : dumpost_cfg_t)
    (state : request_state) (s : List Byte) (len : Nat) (ops : List Op)
    (invs : List Invocation) (h : state_ok cfg state) :
    (∃ n state1, buffer_append state cfg s len =
      some (n, state1,
        if state.buffer_used < cfg.max_size ∧ state1.buffer_used = cfg.max_size then
          [LogEntry.warning cfg.max_size] else [])) ∧
    (∃ state1 log, run_ops r cfg state ops = some (state1, log) ∧
      warning_count log =
        (if state.buffer_used < cfg.max_size ∧ state1.buffer_used = cfg.max_size then 1
          else 0) ∧
      warning_count log ≤ 1 ∧
      (state.buffer_used = cfg.max_size →
        warning_count log = 0 ∧ state1.buffer_used = cfg.max_size)) ∧
    (∃ final log, run_filter r cfg none invs = some (final, log) ∧
      warning_count log ≤ 1) := by
  refine ⟨?_, ?_, ?_⟩
  · exact ⟨_, _, buffer_append_eq cfg state s len h⟩
  · obtain ⟨state1, log, x, e, t⟩ := run_ops_trans r cfg ops state h
    refine ⟨state1, log, e, t.warns, t.warning_le_one, ?_⟩
    intro hf
    have u := t.used h
    constructor
    · rw [t.warns, if_neg (by omega)]
    · omega
  · obtain ⟨final, log, e, p⟩ := run_filter_fresh r cfg invs
    refine ⟨final, log, e, ?_⟩
    rcases p with ⟨-, -, -, w, -⟩ | ⟨-, junk, state1, -, t, -⟩
    · omega
    · exact t.warning_le_one

/-- C10 at the scenario "body truncated to cap": the append that fills the buffer, then
two more appends and a call of the filter. -/
theorem C10_warning_at_most_once_witness :
    state_ok trunc_cfg (new_state trunc_cfg (fun _ => 7)) ∧
    (∃ n state1, buffer_append (new_state trunc_cfg (fun _ => 7)) trunc_cfg
        (str "0123456789") 10 = some (n, state1, [LogEntry.warning 8])) ∧
    (∃ state1 log, run_ops plain_request trunc_cfg (new_state trunc_cfg (fun _ => 7))
        [Op.append (str "0123456789") 10, Op.append (str "ab") 2, Op.filter trunc_invocation,
          Op.append (str "c") 1] = some (state1, log) ∧
      warning_count log = 1) := by
  have h := C10_warning_at_most_once plain_request trunc_cfg (new_state trunc_cfg (fun _ => 7))
    (str "0123456789") 10
    [Op.append (str "0123456789") 10, Op.append (str "ab") 2, Op.filter trunc_invocation,
      Op.append (str "c") 1] [trunc_invocation] (by decide)
  refine ⟨by decide, ?_, ?_⟩
  · obtain ⟨n, state1, e⟩ := h.1
    refine ⟨n, state1, ?_⟩
    rw [e]
    have e1 : buffer_append (new_state trunc_cfg (fun _ => 7)) trunc_cfg (str "0123456789") 10 =
        some (8, ⟨str "01234567" ++ [7], 8, false, false, false⟩, [LogEntry.warning 8]) := by
      decide
    rw [e1] at e
    simp only [Option.some.injEq, Prod.mk.injEq] at e
    rw [← e.2.2]
  · obtain ⟨state1, log, e, w, -⟩ := h.2.1
    refine ⟨state1, log, e, ?_⟩
    have e1 : (run_ops plain_request trunc_cfg (new_state trunc_cfg (fun _ => 7))
        [Op.append (str "0123456789") 10, Op.append (str "ab") 2, Op.filter trunc_invocation,
          Op.append (str "c") 1]).map (fun p => warning_count p.2) = some 1 := by decide
    rw [e] at e1
    simpa using e1

theorem header_segment_nul_free (r : request_rec) (names : List (List Byte)) :
    (header_segment r names).all (fun b => b != 0) = true := by
  induction names with
  | nil => rfl
  | cons name rest ih =>
    unfold header_segment
    cases apr_table_get r.headers_in name with
    | none => simpa using ih
    | some value =>
      rw [List.all_append, List.all_append, value.nul_free, ih]
      rfl

theorem query_segment_nul_free (r : request_rec) :
    (query_segment r).all (fun b => b != 0) = true := by
  unfold query_segment
  cases r.args with
  | none => rfl
  | some args =>
    dsimp only
    split_ifs
    · rfl
    · rw [List.all_append, args.nul_free]
      rfl

theorem preamble_nul_free (r : request_rec) (cfg : dumpost_cfg_t) (m : Nat) :
    ((header_segment r cfg.headers ++ query_segment r).take m).all (fun b => b != 0) = true := by
  rw [List.all_eq_true]
  intro x hx
  have hx1 := List.mem_of_mem_take hx
  rcases List.mem_append.mp hx1 with h | h
  · exact List.all_eq_true.mp (header_segment_nul_free r cfg.headers) x h
  · exact List.all_eq_true.mp (query_segment_nul_free r) x h

/-- C11: in the first call of `dumpost_input_filter` on a request (the state is created
in it), the header step and then the query-string step return and leave as captured bytes
the first `min(max_size, total)` bytes of `H·Q`: for each configured header name, in
configured order, that the request carries, its value and one space, nothing for a name
the request lacks, then the query string and one space when the query string is
non-empty; the walk of the brigade starts from that state.  In the scenario "missing
configured header" the captured bytes are `ua `. -/
theorem C11_preamble_capture (r : request_rec) (cfg : dumpost_cfg_t) (inv : Invocation)
    (hc : inv.pool_create = APR_SUCCESS) :
    (∃ state1 log1 state2 log2,
      dump_headers r cfg (new_state cfg inv.junk) = some (state1, log1) ∧
      dump_query_string r cfg state1 = some (state2, log2) ∧
      captured state2 =
        (header_segment r cfg.headers ++ query_segment r).take
          (min cfg.max_size (header_segment r cfg.headers ++ query_segment r).length) ∧
      ∃ state3 log3 res,
        brigade_loop r cfg (fetched_buckets true [inv]) state2 = some (state3, log3) ∧
        dumpost_input_filter r cfg none inv = some res ∧ res.ctx = some state3) ∧
    ((dump_headers agent_request agent_cfg (new_state agent_cfg (fun _ => 7))).bind
        (fun p => dump_query_string agent_request agent_cfg p.1)).map
      (fun p => captured p.1) = some (str "ua ") := by
  refine ⟨?_, by decide⟩
  have hns := new_state_ok cfg inv.junk
  obtain ⟨state1, log1, state2, log2, e1, e2, t, -, -⟩ :=
    preamble_fresh r cfg (new_state cfg inv.junk) hns rfl rfl
  obtain ⟨state3, log3, res, e3, e, c, -⟩ :=
    filter_body_split r cfg _ state1 state2 log1 log2 inv e1 e2 t.ok
  refine ⟨state1, log1, state2, log2, e1, e2, ?_, state3, log3, res, e3, ?_, c⟩
  · rw [take_min_length, t.cap, captured_new_state, List.nil_append]
  · rw [dumpost_input_filter_create r cfg inv hc]
    exact e

/-- C11 at a first call in the scenario "missing configured header". -/
theorem C11_preamble_capture_witness :
    eos_invocation.pool_create = APR_SUCCESS ∧
    ∃ state1 log1 state2 log2,
      dump_headers agent_request agent_cfg (new_state agent_cfg eos_invocation.junk) =
        some (state1, log1) ∧
      dump_query_string agent_request agent_cfg state1 = some (state2, log2) ∧
      captured state2 =
        (header_segment agent_request agent_cfg.headers ++ query_segment agent_request).take
          (min agent_cfg.max_size
            (header_segment agent_request agent_cfg.headers ++
              query_segment agent_request).length) ∧
      ∃ state3 log3 res,
        brigade_loop agent_request agent_cfg (fetched_buckets true [eos_invocation]) state2 =
          some (state3, log3) ∧
        dumpost_input_filter agent_request agent_cfg none eos_invocation = some res ∧
        res.ctx = some state3 :=
  ⟨rfl, (C11_preamble_capture agent_request agent_cfg eos_invocation rfl).1⟩

/-- C12, as stated, fails: for the request `GET /s?q=foo` on host `h`, with
`max_size = 64`, no header configured and one call whose brigade holds only the
end-of-stream marker, the one record is `GET h/s q=foo `, not `GET h/s?q=foo q=foo `: the
record prints `r->uri`, the path, which does not hold the query string. -/
theorem C12_counterexample :
    (run_filter query_request query_cfg none [eos_invocation]).map
        (fun p => info_records p.2) = some [str "GET h/s q=foo "] ∧
      (run_filter query_request query_cfg none [eos_invocation]).map
        (fun p => info_records p.2) ≠ some [str "GET h/s?q=foo q=foo "] := by
  decide

/-- C12, amended: when a successfully fetched brigade holds an end-of-stream marker and no
data byte arrives before the first such marker, the calls all return and exactly one
record is emitted, made of the method, hostname, URI and exactly the captured preamble,
the first `max_size` bytes of `H·Q`.  In the scenario "GET with query string, no body"
(no header configured, path `/s`, query string `q=foo`, one call whose brigade holds only
the end-of-stream marker) the captured bytes are `q=foo ` and the one record is
`GET h/s q=foo `. -/
theorem C12_eos_before_data (r : request_rec) (cfg : dumpost_cfg_t) (invs : List Invocation)
    (h1 : ∃ bb ∈ fetched_brigades false invs, apr_bucket.eos ∈ bb)
    (h2 : brigade_bytes (before_eos (fetched_buckets false invs)) = []) :
    (∃ final log, run_filter r cfg none invs = some (final, log) ∧
      info_records log =
        [raw_record_of r ((header_segment r cfg.headers ++ query_segment r).take
          cfg.max_size)]) ∧
    (run_filter query_request query_cfg none [eos_invocation]).map
        (fun p => (p.1.map captured, info_records p.2)) =
      some (some (str "q=foo "), [str "GET h/s q=foo "]) := by
  refine ⟨?_, by decide⟩
  obtain ⟨final, log, e, p⟩ := run_filter_fresh r cfg invs
  have he := (has_eos_fetched false invs).mpr h1
  have hi : brigade_image (before_eos (fetched_buckets false invs)) = [] := by
    apply List.length_eq_zero.mp
    rw [length_brigade_image, h2]
    rfl
  rcases p with ⟨-, -, -, -, f⟩ | ⟨-, junk, state, -, -, -, i⟩
  · rw [f] at he
    simp [has_eos] at he
  · rw [if_pos he, hi, List.append_nil] at i
    refine ⟨final, log, e, ?_⟩
    rw [i, record_of, cstr_of_nul_free _ (preamble_nul_free r cfg cfg.max_size)]
    rfl

/-- C12, amended, at the scenario "GET with query string, no body". -/
theorem C12_eos_before_data_witness :
    (∃ bb ∈ fetched_brigades false [eos_invocation], apr_bucket.eos ∈ bb) ∧
    brigade_bytes (before_eos (fetched_buckets false [eos_invocation])) = [] ∧
    ∃ final log, run_filter query_request query_cfg none [eos_invocation] = some (final, log) ∧
      info_records log = [str "GET h/s q=foo "] :=
  ⟨by decide, by decide,
    (C12_eos_before_data query_request query_cfg [eos_invocation] (by decide) (by decide)).1⟩

/-- C13 on the code: `dumpost_create_dconfig` sets `max_size` to `DEFAULT_MAX_SIZE`, and
`dumpost_set_max_size` stores `DEFAULT_MAX_SIZE` for the arguments `0` and `abc` (which
`atoi` reads as zero) and `4096` for `4096`; but for the argument `-1`, which `atoi` reads
as `-1`, it stores `-1` converted to the type of `max_size`: `2 ^ 64 - 1` for an unsigned
type of 64 bits, `2 ^ 32 - 1` for one of 32 bits, not a byte count equal to the parsed
integer. -/
theorem C13_set_max_size_negative (DEFAULT_MAX_SIZE : Nat) (cfg : dumpost_cfg_t) :
    (dumpost_create_dconfig DEFAULT_MAX_SIZE).max_size = DEFAULT_MAX_SIZE ∧
    (dumpost_set_max_size 64 DEFAULT_MAX_SIZE cfg ⟨str "0", by decide⟩).max_size =
      DEFAULT_MAX_SIZE ∧
    (dumpost_set_max_size 64 DEFAULT_MAX_SIZE cfg ⟨str "abc", by decide⟩).max_size =
      DEFAULT_MAX_SIZE ∧
    (dumpost_set_max_size 64 DEFAULT_MAX_SIZE cfg ⟨str "4096", by decide⟩).max_size = 4096 ∧
    atoi (str "-1") = -1 ∧
    (dumpost_set_max_size 64 DEFAULT_MAX_SIZE cfg ⟨str "-1", by decide⟩).max_size =
      2 ^ 64 - 1 ∧
    (dumpost_set_max_size 32 DEFAULT_MAX_SIZE cfg ⟨str "-1", by decide⟩).max_size =
      2 ^ 32 - 1 := by
  refine ⟨rfl, rfl, rfl, rfl, by decide, rfl, rfl⟩

theorem foldl_add_header (cfg : dumpost_cfg_t) (names : List (List Byte)) :
    names.foldl dumpost_add_header cfg =
      { max_size := cfg.max_size, headers := cfg.headers ++ names } := by
  induction names generalizing cfg with
  | nil => simp
  | cons name rest ih =>
    rw [List.foldl_cons, ih]
    simp [dumpost_add_header]

/-- C14: starting from the configuration `dumpost_create_dconfig` makes, whose header list
is empty, the calls of `dumpost_add_header` with the names `n1, ..., nk` in that order
leave `headers = [n1, ..., nk]` and `max_size` as it was; each call puts its name at the
end of the list and changes neither the names before it nor `max_size`. -/
theorem C14_header_order (DEFAULT_MAX_SIZE : Nat) (names : List (List Byte))
    (cfg : dumpost_cfg_t) (arg : List Byte) :
    (dumpost_create_dconfig DEFAULT_MAX_SIZE).headers = [] ∧
    names.foldl dumpost_add_header (dumpost_create_dconfig DEFAULT_MAX_SIZE) =
      { max_size := DEFAULT_MAX_SIZE, headers := names } ∧
    (dumpost_add_header cfg arg).headers = cfg.headers ++ [arg] ∧
    (dumpost_add_header cfg arg).headers.length = cfg.headers.length + 1 ∧
    (dumpost_add_header cfg arg).headers.take cfg.headers.length = cfg.headers ∧
    (dumpost_add_header cfg arg).max_size = cfg.max_size := by
  refine ⟨rfl, ?_, rfl, ?_, ?_, rfl⟩
  · rw [foldl_add_header]
    rfl
  · simp [dumpost_add_header]
  · simp [dumpost_add_header]

theorem run_filter_decompose (r : request_rec) (cfg : dumpost_cfg_t) (invs : List Invocation) :
    ∃ final log, run_filter r cfg none invs = some (final, log) ∧
      ((final = none ∧ ∀ inv ∈ invs, inv.pool_create ≠ APR_SUCCESS) ∨
       (∃ junk state1 log1 state2 log2 state4 l,
          dump_headers r cfg (new_state cfg junk) = some (state1, log1) ∧
          dump_query_string r cfg state1 = some (state2, log2) ∧
          state_ok cfg state2 ∧ preamble_done r cfg state2 ∧
          brigade_loop r cfg (fetched_buckets false invs) state2 = some (state4, l) ∧
          final = some state4)) := by
  induction invs with
  | nil => exact ⟨none, [], rfl, Or.inl ⟨rfl, by simp⟩⟩
  | cons inv rest ih =>
    by_cases hc : inv.pool_create = APR_SUCCESS
    · have hns := new_state_ok cfg inv.junk
      obtain ⟨state1, log1, state2, log2, e1, e2, tp, -, pd⟩ :=
        preamble_fresh r cfg (new_state cfg inv.junk) hns rfl rfl
      obtain ⟨state3, log3, res, e3, e, c, -⟩ :=
        filter_body_split r cfg _ state1 state2 log1 log2 inv e1 e2 tp.ok
      obtain ⟨t3, -⟩ := brigade_loop_props r cfg _ state2 state3 log3 tp.ok e3
      obtain ⟨state4, log4, l4, e4, f4, -⟩ :=
        run_filter_done_loop r cfg rest state3 t3.ok (t3.keeps_done tp.ok pd)
      have eall := brigade_loop_append r cfg _ _ state2 state3 state4 log3 l4 e3 f4
      rw [← fetched_buckets_cons_created inv rest hc] at eall
      refine ⟨some state4, res.log ++ log4, ?_, Or.inr ⟨inv.junk, state1, log1, state2, log2,
        state4, log3 ++ l4, e1, e2, tp.ok, pd, eall, rfl⟩⟩
      simp [run_filter, dumpost_input_filter, hc, e, c, e4]
    · obtain ⟨final, log, e, p⟩ := ih
      have hf := fetched_buckets_cons_failed inv rest hc
      have hne : (inv.pool_create != APR_SUCCESS) = true := by simpa using hc
      refine ⟨final, [LogEntry.error] ++ log, ?_, ?_⟩
      · simp [run_filter, dumpost_input_filter, hne, e]
      · rcases p with ⟨a, b⟩ | ⟨junk, state1, log1, state2, log2, state4, l, a1, a2, a3, a4,
          a5, a6⟩
        · refine Or.inl ⟨a, ?_⟩
          intro inv2 m2
          rcases List.mem_cons.mp m2 with rfl | m2
          · exact hc
          · exact b inv2 m2
        · exact Or.inr ⟨junk, state1, log1, state2, log2, state4, l, a1, a2, a3, a4,
            by rw [hf]; exact a5, a6⟩

theorem run_filter_final_done (r : request_rec) (cfg : dumpost_cfg_t) (invs : List Invocation)
    (state : request_state) (log : List LogEntry)
    (h : run_filter r cfg none invs = some (some state, log)) :
    state_ok cfg state ∧ preamble_done r cfg state := by
  obtain ⟨final, log1, e, p⟩ := run_filter_decompose r cfg invs
  rw [h] at e
  simp only [Option.some.injEq, Prod.mk.injEq] at e
  obtain ⟨rfl, rfl⟩ := e
  rcases p with ⟨a, -⟩ | ⟨junk, state1, l1, state2, l2, state4, l, -, -, ok2, pd, e5, e6⟩
  · exact absurd a (by simp)
  · simp only [Option.some.injEq] at e6
    subst e6
    obtain ⟨t, -⟩ := brigade_loop_props r cfg _ state2 state l ok2 e5
    exact ⟨t.ok, t.keeps_done ok2 pd⟩

/-- C15: over the calls of the filter on a request, the calls all return and, once the
state exists, the header step and the query-string step leave it as it is and log
nothing: in every later call they append nothing, so that `buffer_used` and the buffer
keep their values through them, and a later call whose downstream read fails leaves the
whole state as it was.  In the scenario "downstream read error mid-request" followed by
the calls of "small POST captured entirely" the header value is captured once. -/
theorem C15_preamble_built_once (r : request_rec) (cfg : dumpost_cfg_t)
    (invs : List Invocation) (inv : Invocation) :
    (∃ final log, run_filter r cfg none invs = some (final, log) ∧
      final.isSome = invs.any (fun i => i.pool_create == APR_SUCCESS) ∧
      ∀ state, final = some state →
        dump_headers r cfg state = some (state, []) ∧
        dump_query_string r cfg state = some (state, []) ∧
        (inv.get_brigade.1 ≠ APR_SUCCESS →
          dumpost_input_filter r cfg (some state) inv =
            some { status := inv.get_brigade.1, ctx := some state, bb := inv.get_brigade.2,
                   log := [] })) ∧
    (run_filter post_request post_cfg none (failed_invocation :: post_invocations)).map
        (fun p => (p.1.map captured, info_records p.2)) =
      some (some (str "application/x-www-form-urlencoded a=1&b=2"),
        [str "POST h/p application/x-www-form-urlencoded a=1&b=2"]) := by
  refine ⟨?_, by decide⟩
  obtain ⟨final, log, e, -⟩ := run_filter_fresh r cfg invs
  refine ⟨final, log, e, run_filter_is_some r cfg invs final log e, ?_⟩
  intro state hs
  subst hs
  obtain ⟨-, pd⟩ := run_filter_final_done r cfg invs state log e
  have e1 := dump_headers_skip r cfg state pd.1
  have e2 := dump_query_string_skip r cfg state pd.2
  refine ⟨e1, e2, ?_⟩
  intro hfail
  exact (filter_body_eq r cfg state state state [] [] inv e1 e2).1 hfail

theorem header_step_fresh (r : request_rec) (cfg : dumpost_cfg_t) (junk : Nat → Byte) :
    ∃ state1 log1, dump_headers r cfg (new_state cfg junk) = some (state1, log1) ∧
      state_ok cfg state1 ∧
      state1.header_printed = decide (cfg.headers ≠ [] ∧ 0 < cfg.max_size) ∧
      state1.qs_printed = false ∧
      state1.buffer_used = min cfg.max_size (header_segment r cfg.headers).length := by
  have hns := new_state_ok cfg junk
  have hu : (new_state cfg junk).buffer_used = 0 := rfl
  by_cases h1 : cfg.headers = []
  · refine ⟨_, [], dump_headers_skip r cfg _ (Or.inl h1), hns, ?_, rfl, ?_⟩
    · simp [h1, new_state]
    · rw [hu, h1]
      simp [header_segment]
  · by_cases h2 : cfg.max_size = 0
    · have hf : buffer_is_full (new_state cfg junk) cfg = true := by
        simp [buffer_is_full, new_state, h2]
      refine ⟨_, [], dump_headers_skip r cfg _ (Or.inr (Or.inl hf)), hns, ?_, rfl, ?_⟩
      · simp [h2, new_state]
      · rw [hu, h2]
        simp
    · have hf : buffer_is_full (new_state cfg junk) cfg = false := by
        simp only [buffer_is_full, new_state, beq_eq_false_iff_ne, ne_eq]
        omega
      obtain ⟨state1, log1, e, a⟩ := dump_headers_run r cfg _ hns h1 hf rfl
      refine ⟨_, log1, e, a.1.set_header_printed.ok, ?_, a.2.2.1, ?_⟩
      · have : 0 < cfg.max_size := by omega
        simp [h1, this]
      · have u := a.1.used hns
        rw [hu, Nat.zero_add] at u
        exact u

theorem query_step_flags (r : request_rec) (cfg : dumpost_cfg_t) (state1 : request_state)
    (ok : state_ok cfg state1) (hq : state1.qs_printed = false) :
    ∃ state2 log2, dump_query_string r cfg state1 = some (state2, log2) ∧
      state2.header_printed = state1.header_printed ∧
      state2.qs_printed =
        decide (query_segment r ≠ [] ∧ state1.buffer_used < cfg.max_size) := by
  by_cases h1 : query_segment r = []
  · refine ⟨_, [], dump_query_string_skip r cfg _ (Or.inl h1), rfl, ?_⟩
    simp [h1, hq]
  · by_cases h2 : state1.buffer_used = cfg.max_size
    · have hf : buffer_is_full state1 cfg = true := by simp [buffer_is_full, h2]
      refine ⟨_, [], dump_query_string_skip r cfg _ (Or.inr (Or.inl hf)), rfl, ?_⟩
      simp [h2, hq]
    · have hf : buffer_is_full state1 cfg = false := by
        simp only [buffer_is_full, beq_eq_false_iff_ne, ne_eq]
        exact h2
      obtain ⟨state2, log2, e, a⟩ := dump_query_string_run r cfg state1 ok h1 hf hq
      refine ⟨_, log2, e, a.2.1, ?_⟩
      have : state1.buffer_used < cfg.max_size := by
        have := ok.2
        omega
      simp [h1, this]

theorem run_filter_final_flags (r : request_rec) (cfg : dumpost_cfg_t)
    (invs : List Invocation) (state : request_state) (log : List LogEntry)
    (h : run_filter r cfg none invs = some (some state, log)) :
    state.header_printed = decide (cfg.headers ≠ [] ∧ 0 < cfg.max_size) ∧
    state.qs_printed =
      decide (query_segment r ≠ [] ∧
        (header_segment r cfg.headers).length < cfg.max_size) := by
  obtain ⟨final, log1, e, p⟩ := run_filter_decompose r cfg invs
  rw [h] at e
  simp only [Option.some.injEq, Prod.mk.injEq] at e
  obtain ⟨rfl, rfl⟩ := e
  rcases p with ⟨a, -⟩ | ⟨junk, state1, l1, state2, l2, state4, l, e1, e2, ok2, -, e5, e6⟩
  · exact absurd a (by simp)
  · simp only [Option.some.injEq] at e6
    subst e6
    obtain ⟨-, fh, fq, -⟩ := brigade_loop_props r cfg _ state2 state l ok2 e5
    obtain ⟨s1, k1, d1, ok1, hp1, qp1, u1⟩ := header_step_fresh r cfg junk
    rw [e1] at d1
    simp only [Option.some.injEq, Prod.mk.injEq] at d1
    obtain ⟨rfl, rfl⟩ := d1
    obtain ⟨s2, k2, d2, hp2, qp2⟩ := query_step_flags r cfg state1 ok1 qp1
    rw [e2] at d2
    simp only [Option.some.injEq, Prod.mk.injEq] at d2
    obtain ⟨rfl, rfl⟩ := d2
    refine ⟨by rw [fh, hp2, hp1], ?_⟩
    rw [fq, qp2, u1]
    congr 1
    apply propext
    constructor
    · rintro ⟨a, b⟩
      exact ⟨a, by omega⟩
    · rintro ⟨a, b⟩
      exact ⟨a, by omega⟩

/-- C16, as stated, fails: with an empty header list and a request without query string,
the state the first call leaves has `header_printed` and `qs_printed` both unset. -/
theorem C16_counterexample :
    nul_cfg.headers = [] ∧ plain_request.args = none ∧
    (run_filter plain_request nul_cfg none [nul_invocation]).map
        (fun p => p.1.map (fun s => (s.header_printed, s.qs_printed))) =
      some (some (false, false)) :=
  ⟨rfl, rfl, by decide⟩

/-- C16, amended: over the calls of the filter on a request, the calls all return and,
from the call that creates the state on and after every later call, `header_printed` is
set exactly when the header list is non-empty and `max_size > 0`, and `qs_printed` is set
exactly when the query string is non-empty and the header segment is shorter than
`max_size` (the buffer is not full after the header step). -/
theorem C16_flags_after_first_call (r : request_rec) (cfg : dumpost_cfg_t)
    (invs : List Invocation) :
    ∃ final log, run_filter r cfg none invs = some (final, log) ∧
      final.isSome = invs.any (fun i => i.pool_create == APR_SUCCESS) ∧
      ∀ state, final = some state →
        state.header_printed = decide (cfg.headers ≠ [] ∧ 0 < cfg.max_size) ∧
        state.qs_printed =
          decide (query_segment r ≠ [] ∧
            (header_segment r cfg.headers).length < cfg.max_size) := by
  obtain ⟨final, log, e, -⟩ := run_filter_fresh r cfg invs
  refine ⟨final, log, e, run_filter_is_some r cfg invs final log e, ?_⟩
  intro state hs
  subst hs
  exact run_filter_final_flags r cfg invs state log e

theorem brigade_loop_full_printed (r : request_rec) (cfg : dumpost_cfg_t)
    (bb : List apr_bucket) (state : request_state)
    (hf : state.buffer_used = cfg.max_size) (hb : state.buffer_printed = true) :
    ∃ log, brigade_loop r cfg bb state = some (state, log) := by
  induction bb with
  | nil => exact ⟨[], rfl⟩
  | cons b rest ih =>
    obtain ⟨log, e⟩ := ih
    have hfull : buffer_is_full state cfg = true := by simp [buffer_is_full, hf]
    cases b with
    | data read =>
      exact ⟨[LogEntry.debug DebugMsg.data_bucket] ++ log,
        by simp [brigade_loop, bucket_step, hfull, e]⟩
    | eos =>
      exact ⟨[LogEntry.debug DebugMsg.metadata_bucket, LogEntry.debug DebugMsg.eos_bucket] ++
        log, by simp [brigade_loop, bucket_step, buffer_print_skip r cfg state hb, e]⟩
    | metadata =>
      exact ⟨[LogEntry.debug DebugMsg.metadata_bucket] ++ log,
        by simp [brigade_loop, bucket_step, e]⟩

/-- C17, as stated, fails: a data chunk met after the record was emitted is appended like
any other.  On `printed_state`, which a first call with an end-of-stream marker leaves
(`buffer_printed` set, nothing captured, `max_size = 4`), the data chunk `a` moves
`buffer_used` from 0 to 1 and changes the first byte of the buffer. -/
theorem C17_counterexample :
    (run_filter plain_request nul_cfg none [eos_invocation]).map (fun p => p.1) =
        some (some printed_state) ∧
      printed_state.buffer_printed = true ∧
      (printed_state.buffer_used, printed_state.buffer) = (0, [0, 7, 7, 7, 7]) ∧
      (bucket_step plain_request nul_cfg (apr_bucket.data (some [97])) printed_state).map
          (fun p => (p.1.buffer_used, p.1.buffer)) = some (1, [97, 7, 7, 7, 7]) := by
  decide

/-- C17, amended: from a state with `buffer_printed` set, the walk of any further brigade
returns, emits no record and leaves `buffer_printed` set; it leaves the whole state as it
is when the buffer is full; a further data chunk is appended as before the emission,
`buffer_used` growing by `min(len, max_size - buffer_used)` and the captured bytes by as
many bytes of the chunk's `strncpy` image, which leaves `buffer_used` and the buffer
unchanged only when the buffer is full or the chunk is empty; and a chunk whose read
fails leaves the state as it is. -/
theorem C17_after_emission (r : request_rec) (cfg : dumpost_cfg_t) (state : request_state)
    (bb : List apr_bucket) (ibuf : List Byte) (ok : state_ok cfg state)
    (hb : state.buffer_printed = true) :
    (∃ state1 log, brigade_loop r cfg bb state = some (state1, log) ∧
      info_records log = [] ∧ state1.buffer_printed = true ∧
      (state.buffer_used = cfg.max_size → state1 = state)) ∧
    (∃ state1 log, bucket_step r cfg (apr_bucket.data (some ibuf)) state = some (state1, log) ∧
      state1.buffer_used =
        state.buffer_used + min ibuf.length (cfg.max_size - state.buffer_used) ∧
      captured state1 =
        (captured state ++ strncpy_bytes ibuf ibuf.length).take cfg.max_size ∧
      state1.buffer_printed = true ∧
      ((state.buffer_used = cfg.max_size ∨ ibuf = []) → state1 = state)) ∧
    (∃ log, bucket_step r cfg (apr_bucket.data none) state = some (state, log)) := by
  refine ⟨?_, ?_, ?_⟩
  · obtain ⟨state1, log, e, t, -, -, b, i⟩ := brigade_loop_trans r cfg bb state ok
    refine ⟨state1, log, e, ?_, by rw [b, hb]; rfl, ?_⟩
    · rw [i, if_neg (by simp [hb])]
    · intro hf
      obtain ⟨log1, e1⟩ := brigade_loop_full_printed r cfg bb state hf hb
      rw [e] at e1
      simp only [Option.some.injEq, Prod.mk.injEq] at e1
      exact e1.1
  · obtain ⟨state1, log, e, t, -, -, b, -⟩ :=
      bucket_step_trans r cfg (apr_bucket.data (some ibuf)) state ok
    have u := t.used ok
    rw [length_strncpy_bytes] at u
    have hu := ok.2
    refine ⟨state1, log, e, ?_, t.cap, by rw [b, hb]; rfl, ?_⟩
    · simp only [bucket_bytes] at u
      omega
    · intro hc
      rcases hc with hf | he
      · have hfull : buffer_is_full state cfg = true := by simp [buffer_is_full, hf]
        simp only [bucket_step, hfull, Bool.not_true, Bool.false_eq_true, if_false,
          Option.some.injEq, Prod.mk.injEq] at e
        exact e.1.symm
      · subst he
        simp only [bucket_step, List.length_nil, bne_self_eq_false, Bool.false_eq_true,
          if_false, ite_self, Option.some.injEq, Prod.mk.injEq] at e
        exact e.1.symm
  · cases hf : buffer_is_full state cfg <;> simp [bucket_step, hf]

/-- C17, amended, at `printed_state` with a brigade that holds a data chunk and an
end-of-stream marker. -/
theorem C17_after_emission_witness :
    state_ok nul_cfg printed_state ∧ printed_state.buffer_printed = true ∧
    (∃ state1 log, brigade_loop plain_request nul_cfg
        [apr_bucket.data (some [97]), apr_bucket.eos] printed_state = some (state1, log) ∧
      info_records log = [] ∧ state1.buffer_printed = true) ∧
    (∃ state1 log, bucket_step plain_request nul_cfg (apr_bucket.data (some [97]))
        printed_state = some (state1, log) ∧
      state1.buffer_used = 1) := by
  have h := C17_after_emission plain_request nul_cfg printed_state
    [apr_bucket.data (some [97]), apr_bucket.eos] [97] (by decide) rfl
  refine ⟨by decide, rfl, ?_, ?_⟩
  · obtain ⟨state1, log, e, i, b, -⟩ := h.1
    exact ⟨state1, log, e, i, b⟩
  · obtain ⟨state1, log, e, u, -⟩ := h.2.1
    exact ⟨state1, log, e, u⟩

theorem non_debug_append (a b : List LogEntry) :
    non_debug (a ++ b) = non_debug a ++ non_debug b := by
  induction a with
  | nil => rfl
  | cons e t ih => cases e <;> simp [non_debug, ih]

theorem bucket_step_skipped (r : request_rec) (cfg : dumpost_cfg_t) (b : apr_bucket)
    (state : request_state) (h : skipped_bucket b = true) :
    ∃ log, bucket_step r cfg b state = some (state, log) ∧ non_debug log = [] := by
  cases b with
  | data read =>
    cases read with
    | none =>
      cases hf : buffer_is_full state cfg
      · exact ⟨[LogEntry.debug DebugMsg.data_bucket, LogEntry.debug DebugMsg.error_reading],
          by simp [bucket_step, hf], rfl⟩
      · exact ⟨[LogEntry.debug DebugMsg.data_bucket], by simp [bucket_step, hf], rfl⟩
    | some ibuf =>
      have hz : ibuf.length = 0 := by simpa [skipped_bucket] using h
      exact ⟨[LogEntry.debug DebugMsg.data_bucket], by simp [bucket_step, hz], rfl⟩
  | eos => simp [skipped_bucket] at h
  | metadata => simp [skipped_bucket] at h

theorem brigade_loop_without_skipped (r : request_rec) (cfg : dumpost_cfg_t)
    (bb : List apr_bucket) (state : request_state) :
    walk_outcome (brigade_loop r cfg bb state) =
      walk_outcome (brigade_loop r cfg (without_skipped bb) state) := by
  induction bb generalizing state with
  | nil => rfl
  | cons b rest ih =>
    cases hs : skipped_bucket b with
    | true =>
      obtain ⟨log, e, n⟩ := bucket_step_skipped r cfg b state hs
      have hw : without_skipped (b :: rest) = without_skipped rest := by
        simp [without_skipped, hs]
      rw [hw, ← ih state]
      simp only [brigade_loop, e]
      cases brigade_loop r cfg rest state with
      | none => rfl
      | some p => simp [walk_outcome, non_debug_append, n]
    | false =>
      have hw : without_skipped (b :: rest) = b :: without_skipped rest := by
        simp [without_skipped, hs]
      rw [hw]
      simp only [brigade_loop]
      cases bucket_step r cfg b state with
      | none => rfl
      | some p =>
        obtain ⟨state1, log1⟩ := p
        have h := ih state1
        dsimp only
        cases hx : brigade_loop r cfg rest state1 with
        | none =>
          cases hy : brigade_loop r cfg (without_skipped rest) state1 with
          | none => rfl
          | some q => rw [hx, hy] at h; simp [walk_outcome] at h
        | some p =>
          cases hy : brigade_loop r cfg (without_skipped rest) state1 with
          | none => rw [hx, hy] at h; simp [walk_outcome] at h
          | some q =>
            rw [hx, hy] at h
            simp only [walk_outcome, Option.map_some', Option.some.injEq, Prod.mk.injEq] at h ⊢
            rw [non_debug_append, non_debug_append, h.1, h.2]
            exact ⟨rfl, rfl⟩

theorem filter_body_without_skipped (r : request_rec) (cfg : dumpost_cfg_t)
    (state : request_state) (inv : Invocation) :
    call_outcome (filter_body r cfg state inv) =
      call_outcome (filter_body r cfg state
        { inv with get_brigade := (inv.get_brigade.1, without_skipped inv.get_brigade.2) }) := by
  unfold filter_body
  cases dump_headers r cfg state with
  | none => rfl
  | some p =>
    obtain ⟨state1, log1⟩ := p
    dsimp only
    cases dump_query_string r cfg state1 with
    | none => rfl
    | some q =>
      obtain ⟨state2, log2⟩ := q
      dsimp only
      by_cases hs : inv.get_brigade.1 = APR_SUCCESS
      · have h := brigade_loop_without_skipped r cfg inv.get_brigade.2 state2
        simp only [hs, bne_self_eq_false, Bool.false_eq_true, if_false]
        cases hx : brigade_loop r cfg inv.get_brigade.2 state2 with
        | none =>
          cases hy : brigade_loop r cfg (without_skipped inv.get_brigade.2) state2 with
          | none => rfl
          | some q => rw [hx, hy] at h; simp [walk_outcome] at h
        | some p =>
          cases hy : brigade_loop r cfg (without_skipped inv.get_brigade.2) state2 with
          | none => rw [hx, hy] at h; simp [walk_outcome] at h
          | some q =>
            rw [hx, hy] at h
            simp only [walk_outcome, Option.map_some', Option.some.injEq, Prod.mk.injEq] at h
            simp only [call_outcome, Option.map_some', Option.some.injEq, Prod.mk.injEq,
              non_debug_append, h.1, h.2, true_and]
      · have hne : (inv.get_brigade.1 != APR_SUCCESS) = true := by simpa using hs
        simp only [hne, if_true]
        rfl

theorem info_records_non_debug (log : List LogEntry) :
    info_records (non_debug log) = info_records log := by
  induction log with
  | nil => rfl
  | cons e t ih => cases e <;> simp [non_debug, info_records, ih]

theorem warning_count_non_debug (log : List LogEntry) :
    warning_count (non_debug log) = warning_count log := by
  induction log with
  | nil => rfl
  | cons e t ih => cases e <;> simp [non_debug, warning_count, ih]

/-- C18: a data chunk whose read fails or yields zero bytes leaves the state as it is and
logs debug lines only; for every state and every brigade, the walk of the brigade and the
walk of the brigade without these chunks agree on whether they return, on the final state
and on the log without its debug lines (the warning and informational lines), and from a
state with `buffer_used ≤ max_size` both return; a call of the filter returns the same
status, state and log without debug lines whether or not the fetched brigade holds these
chunks. -/
theorem C18_skipped_chunks (r : request_rec) (cfg : dumpost_cfg_t) (state : request_state)
    (bb : List apr_bucket) (ctx : Option request_state) (inv : Invocation) :
    (∀ b, skipped_bucket b = true →
      ∃ log, bucket_step r cfg b state = some (state, log) ∧ non_debug log = []) ∧
    walk_outcome (brigade_loop r cfg bb state) =
      walk_outcome (brigade_loop r cfg (without_skipped bb) state) ∧
    (state_ok cfg state →
      ∃ state1 log log1, brigade_loop r cfg bb state = some (state1, log) ∧
        brigade_loop r cfg (without_skipped bb) state = some (state1, log1) ∧
        non_debug log = non_debug log1 ∧
        info_records log = info_records log1 ∧ warning_count log = warning_count log1) ∧
    call_outcome (dumpost_input_filter r cfg ctx inv) =
      call_outcome (dumpost_input_filter r cfg ctx
        { inv with get_brigade := (inv.get_brigade.1, without_skipped inv.get_brigade.2) }) ∧
    walk_outcome (brigade_loop plain_request trunc_cfg
        [apr_bucket.data none, apr_bucket.data (some (str "0123")), apr_bucket.data (some []),
          apr_bucket.data (some (str "456789")), apr_bucket.eos]
        (new_state trunc_cfg (fun _ => 7))) =
      walk_outcome (brigade_loop plain_request trunc_cfg
        [apr_bucket.data (some (str "0123")), apr_bucket.data (some (str "456789")),
          apr_bucket.eos]
        (new_state trunc_cfg (fun _ => 7))) := by
  refine ⟨fun b hb => bucket_step_skipped r cfg b state hb,
    brigade_loop_without_skipped r cfg bb state, ?_, ?_, by decide⟩
  · intro ok
    obtain ⟨state1, log, e, -⟩ := brigade_loop_trans r cfg bb state ok
    obtain ⟨state2, log1, e1, -⟩ := brigade_loop_trans r cfg (without_skipped bb) state ok
    have h := brigade_loop_without_skipped r cfg bb state
    rw [e, e1] at h
    simp only [walk_outcome, Option.map_some', Option.some.injEq, Prod.mk.injEq] at h
    obtain ⟨rfl, hl⟩ := h
    refine ⟨state1, log, log1, e, e1, hl, ?_, ?_⟩
    · rw [← info_records_non_debug log, hl, info_records_non_debug]
    · rw [← warning_count_non_debug log, hl, warning_count_non_debug]
  · cases ctx with
    | some s => exact filter_body_without_skipped r cfg s inv
    | none =>
      unfold dumpost_input_filter
      dsimp only
      split_ifs
      · rfl
      · exact filter_body_without_skipped r cfg (new_state cfg inv.junk) inv

theorem store_at_spec (buf bytes : List Byte) (off : Nat)
    (h : off + bytes.length ≤ buf.length) :
    ∃ buf1, store_at buf off bytes = some buf1 ∧ buf1.length = buf.length ∧
      (∀ i, i < off ∨ off + bytes.length ≤ i → buf1[i]? = buf[i]?) ∧
      (buf1.drop off).take bytes.length = bytes := by
  have hl : (List.take off buf).length = off := by
    rw [List.length_take]; omega
  refine ⟨buf.take off ++ bytes ++ buf.drop (off + bytes.length), by simp [store_at, h], ?_,
    ?_, ?_⟩
  · simp only [List.length_append, List.length_take, List.length_drop]
    omega
  · intro i hi
    rcases hi with hi | hi
    · rw [List.append_assoc, List.getElem?_append_left (by rw [hl]; exact hi),
        List.getElem?_take_of_lt hi]
    · rw [List.getElem?_append_right (by simp only [List.length_append, hl]; exact hi),
        List.getElem?_drop]
      simp only [List.length_append, hl]
      congr 1
      omega
  · rw [List.append_assoc, List.drop_left' hl, List.take_left' rfl]

/-- From a state with `buffer_used ≤ max_size` and `max_size + 1` bytes of buffer, the
store of `buffer_append` is of `n = min(len, max_size - buffer_used)` bytes at the indices
`[buffer_used, buffer_used + n)` with `buffer_used + n ≤ max_size`, inside the buffer, and
leaves every other byte as it is; the store of `buffer_print` is of one byte at the index
`buffer_used ≤ max_size`, inside the buffer, and leaves every other byte as it is; so
`buffer_append` and `buffer_print` return for every input, and so does every sequence of
appends and calls of the filter on the state. -/
theorem stores_in_range_of_state_ok (r : request_rec) (cfg : dumpost_cfg_t)
    (state : request_state) (s : List Byte) (len : Nat) (ops : List Op)
    (ok : state_ok cfg state) :
    (state.buffer_used + c_min len (cfg.max_size - state.buffer_used) ≤ cfg.max_size ∧
      cfg.max_size < state.buffer.length ∧
      ∃ buf, store_at state.buffer state.buffer_used
          (strncpy_bytes s (c_min len (cfg.max_size - state.buffer_used))) = some buf ∧
        buf.length = state.buffer.length ∧
        ∀ i, i < state.buffer_used ∨
            state.buffer_used + c_min len (cfg.max_size - state.buffer_used) ≤ i →
          buf[i]? = state.buffer[i]?) ∧
    (state.buffer_used ≤ cfg.max_size ∧
      ∃ buf, store_at state.buffer state.buffer_used [0] = some buf ∧
        buf.length = state.buffer.length ∧
        ∀ i, i ≠ state.buffer_used → buf[i]? = state.buffer[i]?) ∧
    (buffer_append state cfg s len).isSome = true ∧
    (buffer_print r state cfg).isSome = true ∧
    (run_ops r cfg state ops).isSome = true := by
  obtain ⟨hl, hu⟩ := ok
  have hn : state.buffer_used + c_min len (cfg.max_size - state.buffer_used) ≤
      cfg.max_size := by
    rw [c_min_eq]; omega
  refine ⟨⟨hn, by omega, ?_⟩, ⟨hu, ?_⟩, ?_, ?_, ?_⟩
  · obtain ⟨buf, e, l, o, -⟩ := store_at_spec state.buffer
      (strncpy_bytes s (c_min len (cfg.max_size - state.buffer_used))) state.buffer_used
      (by rw [length_strncpy_bytes]; omega)
    refine ⟨buf, e, l, ?_⟩
    intro i hi
    apply o
    rw [length_strncpy_bytes]
    exact hi
  · obtain ⟨buf, e, l, o, -⟩ := store_at_spec state.buffer [0] state.buffer_used
      (by simp only [List.length_singleton]; omega)
    refine ⟨buf, e, l, ?_⟩
    intro i hi
    apply o
    simp only [List.length_singleton]
    omega
  · rw [buffer_append_eq cfg state s len ⟨hl, hu⟩]
    rfl
  · obtain ⟨state1, log, e, -⟩ := buffer_print_trans r cfg state ⟨hl, hu⟩
    rw [e]
    rfl
  · obtain ⟨state1, log, x, e, -⟩ := run_ops_trans r cfg ops state ⟨hl, hu⟩
    rw [e]
    rfl

theorem new_state_sized_eq (size_bits : Nat) (cfg : dumpost_cfg_t) (junk : Nat → Byte)
    (h : cfg.max_size + 1 < 2 ^ size_bits) :
    new_state_sized size_bits cfg junk = new_state cfg junk := by
  simp [new_state_sized, new_state, Nat.mod_eq_of_lt h]

theorem dumpost_input_filter_sized_eq (size_bits : Nat) (r : request_rec)
    (cfg : dumpost_cfg_t) (ctx : Option request_state) (inv : Invocation)
    (h : cfg.max_size + 1 < 2 ^ size_bits) :
    dumpost_input_filter_sized size_bits r cfg ctx inv = dumpost_input_filter r cfg ctx inv := by
  simp [dumpost_input_filter_sized, dumpost_input_filter, new_state_sized_eq size_bits cfg _ h]

/-- C19 on the code: the directive `DumpPostMaxSize -1` leaves `max_size = 2 ^ 64 - 1` in
a `max_size` of 64 bits; the size `max_size + 1` of the buffer, computed in that type, is
0, so the state the filter creates has a buffer of no byte and `buffer_used = 0`, within
`[0, max_size]`; the store of `buffer_print` at the index 0 and the store of
`buffer_append` from the index 0 on are then outside the buffer, and the first call of
the filter with an end-of-stream marker, or with a data chunk, stores outside the
buffer. -/
theorem C19_store_out_of_range :
    negative_cfg.max_size = 2 ^ 64 - 1 ∧
    (new_state_sized 64 negative_cfg (fun _ => 7)).buffer = [] ∧
    (new_state_sized 64 negative_cfg (fun _ => 7)).buffer_used = 0 ∧
    store_at (new_state_sized 64 negative_cfg (fun _ => 7)).buffer 0 [0] = none ∧
    buffer_print plain_request (new_state_sized 64 negative_cfg (fun _ => 7)) negative_cfg =
      none ∧
    buffer_append (new_state_sized 64 negative_cfg (fun _ => 7)) negative_cfg (str "a") 1 =
      none ∧
    dumpost_input_filter_sized 64 plain_request negative_cfg none eos_invocation = none ∧
    dumpost_input_filter_sized 64 plain_request negative_cfg none nul_invocation = none := by
  decide

theorem strncpy_bytes_no_nul (s : List Byte) (n : Nat) (hn : n ≤ s.length)
    (h : (s.take n).all (fun b => b != 0) = true) : strncpy_bytes s n = s.take n := by
  have hl : (s.take n).length = n := by rw [List.length_take]; omega
  unfold strncpy_bytes
  rw [cstr_of_nul_free _ h, hl, Nat.sub_self]
  simp

theorem strncpy_bytes_first_nul (s : List Byte) (n k : Nat) (hk : k < n)
    (hz : s[k]? = some 0) (h : (s.take k).all (fun b => b != 0) = true) :
    strncpy_bytes s n = s.take k ++ List.replicate (n - k) 0 := by
  induction s generalizing n k with
  | nil => simp at hz
  | cons x t ih =>
    cases k with
    | zero =>
      simp only [List.getElem?_cons_zero, Option.some.injEq] at hz
      subst hz
      rw [strncpy_bytes_cons_nul]
      simp
    | succ k =>
      cases n with
      | zero => omega
      | succ n =>
        simp only [List.take_succ_cons, List.all_cons, Bool.and_eq_true, bne_iff_ne,
          ne_eq] at h
        simp only [List.getElem?_cons_succ] at hz
        rw [strncpy_bytes_cons_succ _ _ _ h.1, ih n k (by omega) hz h.2]
        simp

theorem buffer_append_tail (cfg : dumpost_cfg_t) (state state1 : request_state)
    (s : List Byte) (len n : Nat) (log : List LogEntry) (ok : state_ok cfg state)
    (e : buffer_append state cfg s len = some (n, state1, log)) :
    n = min len (cfg.max_size - state.buffer_used) ∧
    state1.buffer_used = state.buffer_used + n ∧
    (state1.buffer.drop state.buffer_used).take n = strncpy_bytes s n ∧
    state1.buffer = captured state1 ++ state.buffer.drop state1.buffer_used ∧
    state1.header_printed = state.header_printed ∧
    state1.qs_printed = state.qs_printed ∧
    state1.buffer_printed = state.buffer_printed := by
  rw [buffer_append_eq cfg state s len ok] at e
  simp only [Option.some.injEq, Prod.mk.injEq] at e
  obtain ⟨rfl, rfl, -⟩ := e
  have hl : (List.take state.buffer_used state.buffer).length = state.buffer_used := by
    rw [List.length_take]; have := ok.1; have := ok.2; omega
  refine ⟨rfl, rfl, ?_, ?_, rfl, rfl, rfl⟩
  · dsimp only
    rw [List.append_assoc, List.drop_left' hl, List.take_left' (length_strncpy_bytes _ _)]
  · unfold captured
    dsimp only
    rw [take_store _ _ _ _ (by rw [hl, length_strncpy_bytes])]

theorem drop_captured_append (buf cap : List Byte) (u n : Nat) (hc : cap.length = u)
    (hn : u ≤ n) : (cap ++ buf.drop u).drop n = buf.drop n := by
  rw [List.drop_append_eq_append_drop, List.drop_of_length_le (by omega), List.nil_append,
    List.drop_drop, hc]
  congr 1
  omega

theorem buffer_append_twice (cfg : dumpost_cfg_t) (state : request_state) (a b : List Byte)
    (ok : state_ok cfg state) (ha : a.all (fun c => c != 0) = true)
    (hb : b.all (fun c => c != 0) = true) :
    ∃ n1 state1 log1 n2 state2 log2 n3 log3,
      buffer_append state cfg a a.length = some (n1, state1, log1) ∧
      buffer_append state1 cfg b b.length = some (n2, state2, log2) ∧
      buffer_append state cfg (a ++ b) (a ++ b).length = some (n3, state2, log3) ∧
      n3 = n1 + n2 := by
  obtain ⟨s1, l1, e1, t1, -⟩ := buffer_append_trans cfg state a a.length ok
  obtain ⟨s2, l2, e2, t2, -⟩ := buffer_append_trans cfg s1 b b.length t1.ok
  obtain ⟨s3, l3, e3, t3, -⟩ := buffer_append_trans cfg state (a ++ b) (a ++ b).length ok
  obtain ⟨-, u1, -, b1, f1, g1, p1⟩ := buffer_append_tail cfg state s1 a _ _ l1 ok e1
  obtain ⟨-, u2, -, b2, f2, g2, p2⟩ := buffer_append_tail cfg s1 s2 b _ _ l2 t1.ok e2
  obtain ⟨-, u3, -, b3, f3, g3, p3⟩ := buffer_append_tail cfg state s3 (a ++ b) _ _ l3 ok e3
  have hab : (a ++ b).all (fun c => c != 0) = true := by rw [List.all_append, ha, hb]; rfl
  have c2 : captured s2 = captured s3 := by
    rw [t2.cap, t1.cap, t3.cap, strncpy_bytes_nul_free a ha, strncpy_bytes_nul_free b hb,
      strncpy_bytes_nul_free (a ++ b) hab, take_append_take, List.append_assoc]
  have k1 := length_captured cfg s1 t1.ok
  have k2 := length_captured cfg s2 t2.ok
  have k3 := length_captured cfg s3 t3.ok
  have hu : s2.buffer_used = s3.buffer_used := by rw [← k2, ← k3, c2]
  have hbuf : s2.buffer = s3.buffer := by
    rw [b2, b3, c2, hu, b1, drop_captured_append state.buffer (captured s1) _ _ k1
      (by rw [← hu, u2]; omega)]
  have hs : s2 = s3 := by
    cases s2
    cases s3
    simp only [request_state.mk.injEq]
    simp only at hu hbuf f1 f2 f3 g1 g2 g3 p1 p2 p3
    exact ⟨hbuf, hu, by rw [f2, f1, f3], by rw [g2, g1, g3], by rw [p2, p1, p3]⟩
  refine ⟨_, s1, l1, _, s2, l2, _, l3, e1, e2, by rw [hs]; exact e3, ?_⟩
  rw [hs] at u2
  rw [u1] at u2
  rw [u3] at u2
  omega

/-- C20: from a state with `buffer_used ≤ max_size`, for an input of at least `len` bytes
and `n = min(len, max_size - buffer_used)`, `buffer_append` returns `n` and the `n` bytes
it stores at the indices `[buffer_used, buffer_used + n)` are the first `n` bytes of the
input when none of these is zero; when the first zero byte among them is at the offset
`k < n`, they are the first `k` bytes of the input followed by `n - k` zero bytes.  For
inputs `a` and `b` without zero bytes, appending `a` and then `b` leaves the same state
(buffer, `buffer_used`, flags) as appending `a` followed by `b` as one chunk, and as many
bytes are appended. -/
theorem C20_strncpy_semantics (cfg : dumpost_cfg_t) (state : request_state) (s : List Byte)
    (len : Nat) (a b : List Byte) (ok : state_ok cfg state) (hlen : len ≤ s.length)
    (ha : a.all (fun c => c != 0) = true) (hb : b.all (fun c => c != 0) = true) :
    (∃ state1 log, buffer_append state cfg s len =
        some (min len (cfg.max_size - state.buffer_used), state1, log) ∧
      ((s.take (min len (cfg.max_size - state.buffer_used))).all (fun c => c != 0) = true →
        (state1.buffer.drop state.buffer_used).take
            (min len (cfg.max_size - state.buffer_used)) =
          s.take (min len (cfg.max_size - state.buffer_used))) ∧
      (∀ k, k < min len (cfg.max_size - state.buffer_used) → s[k]? = some 0 →
        (s.take k).all (fun c => c != 0) = true →
        (state1.buffer.drop state.buffer_used).take
            (min len (cfg.max_size - state.buffer_used)) =
          s.take k ++ List.replicate (min len (cfg.max_size - state.buffer_used) - k) 0)) ∧
    (∃ n1 state1 log1 n2 state2 log2 n3 log3,
      buffer_append state cfg a a.length = some (n1, state1, log1) ∧
      buffer_append state1 cfg b b.length = some (n2, state2, log2) ∧
      buffer_append state cfg (a ++ b) (a ++ b).length = some (n3, state2, log3) ∧
      n3 = n1 + n2) := by
  refine ⟨?_, buffer_append_twice cfg state a b ok ha hb⟩
  obtain ⟨state1, log, e, -⟩ := buffer_append_trans cfg state s len ok
  obtain ⟨-, -, w, -⟩ := buffer_append_tail cfg state state1 s len _ log ok e
  refine ⟨state1, log, e, ?_, ?_⟩
  · intro hz
    rw [w, strncpy_bytes_no_nul s _ (by omega) hz]
  · intro k hk h0 hz
    rw [w, strncpy_bytes_first_nul s _ k hk h0 hz]

/-- C20 at the scenario "body with a zero byte": the chunk `a`, zero, `b` is stored as
`a`, zero, zero. -/
theorem C20_strncpy_semantics_witness :
    state_ok nul_cfg (new_state nul_cfg (fun _ => 7)) ∧
    (3 ≤ [97, 0, 98].length) ∧
    (str "ab").all (fun c => c != 0) = true ∧ (str "cd").all (fun c => c != 0) = true ∧
    (∃ state1 log, buffer_append (new_state nul_cfg (fun _ => 7)) nul_cfg [97, 0, 98] 3 =
        some (3, state1, log) ∧
      (state1.buffer.drop 0).take 3 = [97, 0, 0]) ∧
    (∃ n1 state1 log1 n2 state2 log2 n3 log3,
      buffer_append (new_state nul_cfg (fun _ => 7)) nul_cfg (str "ab") 2 =
        some (n1, state1, log1) ∧
      buffer_append state1 nul_cfg (str "cd") 2 = some (n2, state2, log2) ∧
      buffer_append (new_state nul_cfg (fun _ => 7)) nul_cfg (str "abcd") 4 =
        some (n3, state2, log3) ∧
      n3 = n1 + n2) := by
  have h := C20_strncpy_semantics nul_cfg (new_state nul_cfg (fun _ => 7)) [97, 0, 98] 3
    (str "ab") (str "cd") (by decide) (by decide) (by decide) (by decide)
  refine ⟨by decide, by decide, by decide, by decide, ?_, h.2⟩
  obtain ⟨state1, log, e, -, z⟩ := h.1
  exact ⟨state1, log, e, z 1 (by decide) (by decide) (by decide)⟩

end ModDumpost
